import Mathlib

/-!
# Verification of the pptx-processor service core

Shallow embedding, in Lean 4, of the core algorithms and components of the
pptx-processor service (`app/services/pptx_processor.py`,
`app/services/cache_service.py`, `app/services/processing_manager.py`,
`app/services/worker_pool.py`), together with theorems settling the stated
behavioural properties of those components.

Modelling conventions:
* Python strings are modelled as `List Char`; `None`-able values as `Option`.
* Python float values are represented by a fraction type `Frac` (pairs of
  integers); `int()` on a float is modelled as truncation toward zero
  (`pyInt`).  The per-slide progress expression `int((idx / slide_count) * 75)`
  is sensitive to rounding, so its two float operations are modelled as
  IEEE-754 binary64 round-to-nearest (ties to even) via `roundDouble`, with
  unbounded exponent range (no overflow or underflow: exact for every value in
  the binary64 normal range, which covers all inputs these call sites can see).
  The coordinate-transform and matcher-score comparisons are modelled as exact
  rational arithmetic: the properties stated about them do not hinge on the
  last bits of a double.
* Calls into the outside world (filesystem, subprocess renderer, storage
  uploads) are modelled by environment records carrying each call's outcome,
  and by explicit event / operation traces where the property talks about the
  calls themselves.
-/

namespace PptxProc

/-! ## Exact fractions standing in for Python floats -/

/-- An exact fraction `num / den`.  Used to represent Python float values:
binary64 doubles are fractions whose denominator is a power of two, and the
rounding-sensitive progress computation rounds back to such a fraction after
every operation (`roundDouble`). -/
structure Frac where
  num : Int
  den : Int
  deriving DecidableEq, Repr

/-- Normalise the sign so that the denominator is nonnegative. -/
def Frac.signNorm (f : Frac) : Frac :=
  if f.den < 0 then ⟨-f.num, -f.den⟩ else f

def Frac.ofInt (n : Int) : Frac := ⟨n, 1⟩

def Frac.ofNat (n : Nat) : Frac := ⟨(n : Int), 1⟩

def Frac.add (a b : Frac) : Frac :=
  Frac.signNorm ⟨a.num * b.den + b.num * a.den, a.den * b.den⟩

def Frac.sub (a b : Frac) : Frac :=
  Frac.signNorm ⟨a.num * b.den - b.num * a.den, a.den * b.den⟩

def Frac.mul (a b : Frac) : Frac :=
  Frac.signNorm ⟨a.num * b.num, a.den * b.den⟩

def Frac.div (a b : Frac) : Frac :=
  Frac.signNorm ⟨a.num * b.den, a.den * b.num⟩

/-- Boolean strict order on fractions (cross multiplication; both operands are
kept sign-normalised by the smart constructors). -/
def Frac.blt (a b : Frac) : Bool :=
  a.signNorm.num * b.signNorm.den < b.signNorm.num * a.signNorm.den

def Frac.abs (f : Frac) : Frac :=
  ⟨(f.signNorm.num.natAbs : Int), f.signNorm.den⟩

/-- Python `int()` applied to an exact value: truncation toward zero. -/
def pyInt (f : Frac) : Int := Int.tdiv f.signNorm.num f.signNorm.den

/-! ## IEEE-754 binary64 rounding

CPython evaluates `idx / slide_count` as a correctly rounded binary64
division and `* 75` as a correctly rounded binary64 multiplication
(round-to-nearest, ties to even).  The rounding is modelled exactly: a
positive value is scaled into `[2^52, 2^53)`, its 53-bit significand is
obtained by round-half-even integer rounding, and the result is the
significand at the original scale.  The exponent range is unbounded — no
overflow or underflow — which agrees with binary64 on the whole normal
range. -/

/-- Two to the power `k` as an integer, by structural recursion so that
kernel reduction can evaluate it. -/
def pow2 : Nat → Int
  | 0 => 1
  | k + 1 => 2 * pow2 k

/-- Fuel-driven base-2 logarithm on naturals: `natLog2F fuel n` is
`floor(log2 n)` whenever `0 < n ≤ fuel`. -/
def natLog2F : Nat → Nat → Nat
  | 0, _ => 0
  | fuel + 1, n => if 2 ≤ n then natLog2F fuel (n / 2) + 1 else 0

def natLog2 (n : Nat) : Nat := natLog2F n n

/-- Round a fraction with positive denominator to the nearest integer, ties
to even — the integer rounding underlying IEEE-754 round-to-nearest. -/
def rheF (f : Frac) : Int :=
  if 2 * (f.num - f.den * Int.fdiv f.num f.den) < f.den then
    Int.fdiv f.num f.den
  else if f.den < 2 * (f.num - f.den * Int.fdiv f.num f.den) then
    Int.fdiv f.num f.den + 1
  else if Int.fdiv f.num f.den % 2 = 0 then Int.fdiv f.num f.den
  else Int.fdiv f.num f.den + 1

/-- The binade exponent of a positive fraction: the unique `e` with
`2^e ≤ num/den < 2^(e+1)`. -/
def findExpPos (f : Frac) : Int :=
  if f.den ≤ f.num then
    (natLog2 (Int.toNat (Int.tdiv f.num f.den)) : Int)
  else
    if f.num * pow2 (natLog2 (Int.toNat (Int.tdiv f.den f.num))) = f.den then
      -(natLog2 (Int.toNat (Int.tdiv f.den f.num)) : Int)
    else
      -(natLog2 (Int.toNat (Int.tdiv f.den f.num)) : Int) - 1

/-- Round a positive fraction to the nearest binary64 value: 53 significant
bits, ties to even. -/
def flPos (f : Frac) : Frac :=
  if findExpPos f ≤ 52 then
    ⟨rheF ⟨f.num * pow2 (52 - findExpPos f).toNat, f.den⟩,
      pow2 (52 - findExpPos f).toNat⟩
  else
    ⟨rheF ⟨f.num, f.den * pow2 (findExpPos f - 52).toNat⟩ *
      pow2 (findExpPos f - 52).toNat, 1⟩

/-- IEEE-754 binary64 round-to-nearest (ties to even) of an exact value. -/
def roundDouble (f : Frac) : Frac :=
  if f.signNorm.num = 0 then ⟨0, 1⟩
  else if 0 < f.signNorm.num then flPos f.signNorm
  else ⟨-(flPos ⟨-f.signNorm.num, f.signNorm.den⟩).num,
    (flPos ⟨-f.signNorm.num, f.signNorm.den⟩).den⟩

/-- Correctly rounded binary64 division — CPython's `int / int` true
division. -/
def doubleDiv (a b : Frac) : Frac := roundDouble (Frac.div a b)

/-- Correctly rounded binary64 multiplication. -/
def doubleMul (a b : Frac) : Frac := roundDouble (Frac.mul a b)

/-- The rational value of a fraction, used to state and prove facts about
the rounding model. -/
def Frac.toQ (f : Frac) : ℚ := (f.num : ℚ) / (f.den : ℚ)

/-- Round-half-even of a rational to an integer, the proof-level mirror of
`rheF`. -/
def rheQ (q : ℚ) : Int :=
  if Int.fract q < 1 / 2 then ⌊q⌋
  else if 1 / 2 < Int.fract q then ⌊q⌋ + 1
  else if ⌊q⌋ % 2 = 0 then ⌊q⌋ else ⌊q⌋ + 1

/-! ## Python string primitives over `List Char` -/

def isWs (c : Char) : Bool := c.isWhitespace

/-- Python `str.strip()` (ASCII whitespace, which is all the modelled inputs
use). -/
def pyStrip (l : List Char) : List Char :=
  ((l.dropWhile isWs).reverse.dropWhile isWs).reverse

/-- Helper for `pySplitWs`: accumulates the current word (reversed). -/
def pySplitWsAux : List Char → List Char → List (List Char)
  | [], acc => if acc.isEmpty then [] else [acc.reverse]
  | c :: cs, acc =>
    if isWs c then
      if acc.isEmpty then pySplitWsAux cs [] else acc.reverse :: pySplitWsAux cs []
    else
      pySplitWsAux cs (c :: acc)

/-- Python `str.split()` with no argument: split on whitespace runs, dropping
empty pieces. -/
def pySplitWs (l : List Char) : List (List Char) := pySplitWsAux l []

/-- A character in the class `[.!?]` of the sentence-splitting pattern. -/
def isSentenceEnder (c : Char) : Bool := c == '.' || c == '!' || c == '?'

/-- Helper for `reSplitSentenceEnders`, with explicit fuel (the fuel is always
sufficient: every recursive call consumes at least one character). -/
def reSplitSentenceEndersAux : Nat → List Char → List Char → List (List Char)
  | 0, cs, acc => [acc.reverse ++ cs]
  | _ + 1, [], acc => [acc.reverse]
  | fuel + 1, c :: cs, acc =>
    if isSentenceEnder c then
      let run := (c :: cs).takeWhile isSentenceEnder
      let rest := (c :: cs).dropWhile isSentenceEnder
      match rest with
      | [] => reSplitSentenceEndersAux fuel [] (run.reverse ++ acc)
      | d :: _ =>
        if isWs d then
          acc.reverse :: reSplitSentenceEndersAux fuel (rest.dropWhile isWs) []
        else
          reSplitSentenceEndersAux fuel rest (run.reverse ++ acc)
    else
      reSplitSentenceEndersAux fuel cs (c :: acc)

/-- Python `re.split(r'[.!?]+\s+', text)`: the matched separators (a maximal
run of sentence enders followed by a maximal run of whitespace) are removed
from the result, exactly as `re.split` removes them when the pattern has no
capturing group. -/
def reSplitSentenceEnders (l : List Char) : List (List Char) :=
  reSplitSentenceEndersAux (l.length + 1) l []

/-- Join word lists with single spaces. -/
def joinWithSpace : List (List Char) → List Char
  | [] => []
  | [w] => w
  | w :: ws => w ++ ' ' :: joinWithSpace ws

/-- "Whitespace-collapsed" text, as in the round-trip property: leading and
trailing whitespace dropped, inner whitespace runs collapsed to one space. -/
def collapseWs (l : List Char) : List Char := joinWithSpace (pySplitWs l)

/-! ## Text segmentation (`segment_text_for_translation`) -/

/-- One translation segment, as produced by `segment_text_for_translation`
(pptx_processor.py lines 1366-1445). -/
structure TextSegment where
  text : List Char
  segment_index : Nat
  is_complete_sentence : Bool
  word_count : Nat
  char_count : Nat
  deriving DecidableEq, Repr

/-- State of the segmentation loop: segments emitted so far, next segment
index, and the `current_segment` accumulator. -/
structure SegState where
  segs : List TextSegment
  idx : Nat
  current : List Char
  deriving DecidableEq, Repr

/-- The inner word-boundary fallback loop of `segment_text_for_translation`
(lines 1414-1430); `st.current` plays the role of `temp_segment`. -/
def segWordStep (maxLen : Nat) (st : SegState) (w : List Char) : SegState :=
  if st.current ≠ [] ∧ st.current.length + 1 + w.length > maxLen then
    { segs := st.segs ++
        [⟨pyStrip st.current, st.idx, false, (pySplitWs st.current).length,
          st.current.length⟩],
      idx := st.idx + 1, current := w }
  else
    { st with current := if st.current ≠ [] then st.current ++ ' ' :: w else w }

/-- One iteration of the sentence loop of `segment_text_for_translation`
(lines 1395-1433).  Note the inner `if current_segment:` test is nested under
`if current_segment and ...`, so its else branch (the word fallback) is only
reachable with an empty `current_segment`, which the outer test excludes; it
is embedded nevertheless, faithful to the source. -/
def segSentenceStep (maxLen : Nat) (st : SegState) (sentenceRaw : List Char) :
    SegState :=
  let sentence := pyStrip sentenceRaw
  if sentence = [] then st
  else if st.current ≠ [] ∧ st.current.length + 1 + sentence.length > maxLen then
    if st.current ≠ [] then
      { segs := st.segs ++
          [⟨pyStrip st.current, st.idx, true, (pySplitWs st.current).length,
            st.current.length⟩],
        idx := st.idx + 1, current := sentence }
    else
      (pySplitWs sentence).foldl (segWordStep maxLen) { st with current := [] }
  else
    { st with current :=
        if st.current ≠ [] then st.current ++ ' ' :: sentence else sentence }

/-- `segment_text_for_translation(text, max_segment_length)`
(pptx_processor.py lines 1366-1445).  The source default for
`max_segment_length` is 100; `process_slide_simplified` calls it with 150. -/
def segment_text_for_translation (text : List Char) (maxSegmentLength : Nat) :
    List TextSegment :=
  if text = [] ∨ (pyStrip text).length = 0 then []
  else
    let t := pyStrip text
    if t.length ≤ maxSegmentLength then
      [⟨t, 0, true, (pySplitWs t).length, t.length⟩]
    else
      let sentences := reSplitSentenceEnders t
      let st := sentences.foldl (segSentenceStep maxSegmentLength) ⟨[], 0, []⟩
      if st.current ≠ [] then
        st.segs ++
          [⟨pyStrip st.current, st.idx, true, (pySplitWs st.current).length,
            st.current.length⟩]
      else st.segs

/-! ## Translation priority (`extract_shapes_enhanced`) -/

/-- The translation-priority assignment of `extract_shapes_enhanced`
(pptx_processor.py lines 677-686): start from the default 5, then the
`if`/`elif` chain on title, subtitle and word count. -/
def translationPriorityOf (is_title is_subtitle : Bool) (word_count : Nat) :
    Nat :=
  -- the source initialises `translation_priority = 5` and conditionally
  -- overwrites it through the `if`/`elif` chain; the final value is:
  if is_title then 10
  else if is_subtitle then 8
  else if word_count > 20 then 7
  else if word_count < 5 then 3
  else 5

/-! ## Job status and the `process_pptx` event trace (C2, C4) -/

/-- The local job states used by `process_pptx` / `queue_pptx_processing`
(`ProcessingStatus` in `app/models/schemas.py`). -/
inductive PStatus
  | queued
  | processing
  | completed
  | failed
  deriving DecidableEq, Repr

/-- One `update_local_job_status` call, projected to the fields the verified
properties talk about. -/
structure StatusUpdate where
  status : PStatus
  progress : Int
  error : Option (List Char)
  deriving DecidableEq, Repr

/-- Externally visible events of a `process_pptx` run: local job-status
updates and calls of `cache_service.store_cached_result`. -/
inductive ProcEvent
  | statusUpdate (u : StatusUpdate)
  | cacheStore (key : List Char)
  deriving DecidableEq, Repr

def statusEv (s : PStatus) (p : Int) (e : Option (List Char)) : ProcEvent :=
  .statusUpdate ⟨s, p, e⟩

/-- The `except Exception` handler of `process_pptx` (lines 435-454): mark the
job failed with the raised message, progress reset to 0. -/
def failEvents (e : List Char) : List ProcEvent :=
  [statusEv .failed 0 (some e)]

/-- The output-count decision of `_generate_svgs_for_all_slides_libreoffice`
(pptx_processor.py lines 119-146), mapping the number of `.svg` files the
LibreOffice invocation produced and the presentation's slide count either to
the raised error message or to the slide-number keys of the returned mapping.
The file moving is abstracted away; the branch structure and messages are the
source's. -/
def svgGenerationOutcome (svgFilesFound slideCount : Nat) :
    Except (List Char) (List Nat) :=
  if svgFilesFound = 0 then
    .error ("LibreOffice SVG generation failed - no output files".toList)
  else if svgFilesFound = 1 ∧ slideCount > 1 then
    .error ("LibreOffice generated single SVG instead of individual slides".toList)
  else if svgFilesFound = slideCount then
    .ok ((List.range slideCount).map (· + 1))
  else
    .error (("SVG count mismatch: expected " ++ toString slideCount ++
      ", got " ++ toString svgFilesFound).toList)

/-- The per-slide progress computation of `process_pptx` line 372:
`progress = 20 + int((idx / slide_count) * 75)`, with the float expression
computed in IEEE-754 binary64: the division `idx / slide_count` and the
product `* 75` are each correctly rounded to the nearest double (ties to
even), and `int()` truncates toward zero. -/
def slideProgress (idx slideCount : Nat) : Int :=
  20 + pyInt (doubleMul (doubleDiv (Frac.ofNat idx) (Frac.ofNat slideCount))
    (Frac.ofNat 75))

/-- Outcomes of the external calls one `process_pptx` run performs, in the
order the run reaches them.  Each field models the result of the
corresponding call site in pptx_processor.py lines 237-454.  Opening the
presentation (line 339) is taken to succeed; its failure would be one more
instance of the uniform `except` path already covered by the other failure
fields.  Only local job-status updates and cache stores are traced; the
mirrored Supabase updates carry no additional state. -/
structure ProcEnv where
  /-- `generate_cache_key` result (line 256). -/
  cacheKey : Option (List Char)
  /-- whether `get_cached_result` returned an entry (line 259). -/
  cacheHit : Bool
  /-- LibreOffice configured, on disk, and `--help` test passed
  (lines 328-337). -/
  libreofficeAvailable : Bool
  /-- `len(presentation.slides)` (line 340). -/
  slideCount : Nat
  /-- number of `.svg` files found after the LibreOffice run (line 116). -/
  svgFilesFound : Nat
  /-- first slide index (0-based) whose per-slide step raises, with the
  message, if any (lines 381-393). -/
  slideFailure : Option (Nat × List Char)
  /-- result of `upload_file_to_supabase` for `result.json` (line 409):
  the returned URL, or the raised message. -/
  uploadResult : Except (List Char) (List Char)
  deriving Repr

/-- One iteration of the per-slide loop of `process_pptx` (lines 370-393):
emit the progress update, then possibly raise (missing SVG or
`process_slide_simplified` failure).  After a raise the remaining indices
are skipped. -/
def slideStep (n : Nat) (failAt : Option (Nat × List Char))
    (st : List ProcEvent × Option (List Char)) (idx : Nat) :
    List ProcEvent × Option (List Char) :=
  match st.2 with
  | some _ => st
  | none =>
    let evs := st.1 ++ [statusEv .processing (slideProgress idx n) none]
    match failAt with
    | some (j, msg) => if idx = j then (evs, some msg) else (evs, none)
    | none => (evs, none)

/-- The per-slide loop of `process_pptx`: events emitted and the raised
error, if any. -/
def slideLoop (n : Nat) (failAt : Option (Nat × List Char)) :
    List ProcEvent × Option (List Char) :=
  (List.range n).foldl (slideStep n failAt) ([], none)

/-- The conditional cache store of `process_pptx` lines 415-418:
`if cache_key and result_url: cache_service.store_cached_result(...)`. -/
def cacheStoreEvents (env : ProcEnv) (url : List Char) : List ProcEvent :=
  match env.cacheKey with
  | some k => if url ≠ [] then [ProcEvent.cacheStore k] else []
  | none => []

/-- `process_pptx` lines 405-433 after the per-slide loop: the result upload
(whose raise fails the job), the conditional cache store, and the terminal
completed update at progress 100. -/
def processUpload (env : ProcEnv) : List ProcEvent :=
  match env.uploadResult with
  | .error e => failEvents e
  | .ok url => cacheStoreEvents env url ++ [statusEv .completed 100 none]

/-- `process_pptx` lines 368-393: the per-slide loop's events, then either
the raised per-slide error failing the job, or the tail of the run. -/
def processSlides (env : ProcEnv) : List ProcEvent :=
  (slideLoop env.slideCount env.slideFailure).1 ++
    (match (slideLoop env.slideCount env.slideFailure).2 with
     | some e => failEvents e
     | none => processUpload env)

/-- `process_pptx` lines 363-366: the re-check that the generated mapping is
non-empty and matches the slide count (`if not libreoffice_svgs or
len(libreoffice_svgs) != slide_count: raise`). -/
def processWithSvgs (env : ProcEnv) (svgs : List Nat) : List ProcEvent :=
  if svgs.length = 0 ∨ svgs.length ≠ env.slideCount then
    failEvents (("LibreOffice SVG generation failed - expected " ++
      toString env.slideCount ++ " SVGs, got " ++ toString svgs.length).toList)
  else
    processSlides env

/-- `process_pptx` lines 339-366: the progress-5 and progress-10 updates
around opening the presentation, then the SVG generation (a raise fails the
job). -/
def processOpened (env : ProcEnv) : List ProcEvent :=
  statusEv .processing 5 none :: statusEv .processing 10 none ::
    (match svgGenerationOutcome env.svgFilesFound env.slideCount with
     | .error e => failEvents e
     | .ok svgs => processWithSvgs env svgs)

/-- The cache-miss body of `process_pptx` (lines 311-454): the progress-1
update, the LibreOffice availability check (lines 327-337, fatal when it
fails), and the rest of the run; any raise funnels into the `except`
handler's failed-status update. -/
def processMiss (env : ProcEnv) : List ProcEvent :=
  statusEv .processing 1 none ::
    (if ¬ env.libreofficeAvailable then
      failEvents ("LibreOffice not configured or not found".toList)
    else
      processOpened env)

/-- `process_pptx` (lines 237-454): the cache-hit fast path marks the job
completed at progress 100 and stores nothing; otherwise the cache-miss body
runs. -/
def process_pptx (env : ProcEnv) : List ProcEvent :=
  match env.cacheKey with
  | some _ =>
    if env.cacheHit then [statusEv .completed 100 none] else processMiss env
  | none => processMiss env

/-- The full status trace of a job from submission: `queue_pptx_processing`
(lines 191-200) first records `QUEUED` at progress 0, then the manager runs
`process_pptx`. -/
def jobTrace (env : ProcEnv) : List ProcEvent :=
  statusEv .queued 0 none :: process_pptx env

/-- The job-status updates of a trace. -/
def statusUpdates (evs : List ProcEvent) : List StatusUpdate :=
  evs.filterMap fun e =>
    match e with
    | .statusUpdate u => some u
    | .cacheStore _ => none

/-- The progress values recorded across a job's status updates. -/
def progressValues (env : ProcEnv) : List Int :=
  (statusUpdates (jobTrace env)).map StatusUpdate.progress

/-- The number of `store_cached_result` calls in a trace. -/
def cacheStoreCount (evs : List ProcEvent) : Nat :=
  (evs.filterMap fun e =>
    match e with
    | .cacheStore k => some k
    | .statusUpdate _ => none).length

/-- A job completes when its last recorded status update is `completed`. -/
def jobCompletes (env : ProcEnv) : Prop :=
  ((statusUpdates (jobTrace env)).getLast?.map StatusUpdate.status) =
    some PStatus.completed

instance (env : ProcEnv) : Decidable (jobCompletes env) := by
  unfold jobCompletes; infer_instance

/-! ## Cache service (C3, C5)

`CacheService` in `app/services/cache_service.py`.  The SHA-256 primitive is
library code (`hashlib`), modelled as an arbitrary function parameter: every
verified property holds for any choice of digest function.  Feeding the
hasher the file in successive 8 KB chunks digests exactly the concatenated
byte stream, so the model hashes the full content. -/

/-- The state of the source file as seen by `_generate_file_hash`
(cache_service.py lines 31-44). -/
inductive FileState
  | missing
  | unreadable
  | readable (content : List UInt8)
  deriving DecidableEq, Repr

/-- `_generate_file_hash`: `None` when the file does not exist or reading
raises `IOError`; otherwise the digest of the content. -/
def generate_file_hash (shaBytes : List UInt8 → List Char) (f : FileState) :
    Option (List Char) :=
  match f with
  | .missing => none
  | .unreadable => none
  | .readable content => some (shaBytes content)

/-- Python `sorted(params.items())`: tuples ordered lexicographically, first
by key, then by value.  Keys of a `dict` are distinct, so only the key order
matters there. -/
def sortedParams (params : List (List Char × List Char)) :
    List (List Char × List Char) :=
  (List.insertionSort (fun a b => a ≤ b) (params.map toLex)).map ofLex

/-- The canonical parameter serialisation of `generate_cache_key`
(cache_service.py line 57): `"".join(f"{k}={v}" for k, v in sorted(...))`,
with values already rendered by `str`. -/
def paramString (params : List (List Char × List Char)) : List Char :=
  ((sortedParams params).map (fun kv => kv.1 ++ '=' :: kv.2)).flatten

/-- `generate_cache_key` (cache_service.py lines 46-60): `None` when the file
hash is unavailable (or falsy); otherwise the digest of
`f"{file_hash}-{param_string}"`. -/
def generate_cache_key (shaBytes : List UInt8 → List Char)
    (shaStr : List Char → List Char) (f : FileState)
    (params : List (List Char × List Char)) : Option (List Char) :=
  match generate_file_hash shaBytes f with
  | none => none
  | some h => if h = [] then none else some (shaStr (h ++ '-' :: paramString params))

/-- File-system operations performed by the cache writer.  `renameFile` never
occurs in the source's trace; it is part of the vocabulary so that the
atomicity property below can distinguish an in-place write from a
write-to-temp-then-rename scheme. -/
inductive FsOp
  | openTruncate (path : List Char)
  | writeAll (path : List Char) (data : List Char)
  | renameFile (src dst : List Char)
  deriving DecidableEq, Repr

/-- Environment of one `store_cached_result` call. -/
structure StoreEnv where
  /-- the cache directory exists and is a directory after
  `_ensure_cache_dir_exists` (cache_service.py lines 100-104). -/
  cacheDirOk : Bool
  /-- the write raises `IOError`/`TypeError` mid-way (caught at
  lines 114-116). -/
  writeRaises : Bool
  deriving DecidableEq, Repr

/-- `_get_cache_file_path`: `f"{cache_key}.json"` inside the cache directory
(the constant directory prefix is immaterial and omitted). -/
def cacheFilePath (key : List Char) : List Char := key ++ ".json".toList

/-- `store_cached_result` (cache_service.py lines 94-116): returns the
success boolean and the file-system operations performed.  The write is
`open(path, "w")` followed by `json.dump` — truncate then write in place at
the final path. -/
def store_cached_result (env : StoreEnv) (cache_key serialized : List Char) :
    Bool × List FsOp :=
  if cache_key = [] then (false, [])
  else if ¬ env.cacheDirOk then (false, [])
  else if env.writeRaises then
    (false, [.openTruncate (cacheFilePath cache_key)])
  else
    (true, [.openTruncate (cacheFilePath cache_key),
            .writeAll (cacheFilePath cache_key) serialized])

/-- A flat file system: association list from path to content (most recent
entry first). -/
def Fs : Type := List (List Char × List Char)

def fsGet (fs : Fs) (p : List Char) : Option (List Char) :=
  (List.find? (fun e => e.1 == p) fs).map Prod.snd

def fsSet (fs : Fs) (p v : List Char) : Fs := (p, v) :: fs

def fsDel (fs : Fs) (p : List Char) : Fs :=
  List.filter (fun e => !(e.1 == p)) fs

/-- Effect of one file-system operation on observable contents. -/
def applyFsOp (fs : Fs) : FsOp → Fs
  | .openTruncate p => fsSet fs p []
  | .writeAll p d => fsSet fs p ((fsGet fs p).getD [] ++ d)
  | .renameFile src dst =>
    match fsGet fs src with
    | some v => fsSet (fsDel fs src) dst v
    | none => fs

def runFsOps (fs : Fs) (ops : List FsOp) : Fs := ops.foldl applyFsOp fs

/-- Modelled from the claim wording: the put is atomic when an observer of
the final path, at any point between the operations, sees either the
pre-existing state or the complete new entry — never a half-written one. -/
def AtomicPutTrace (fs0 : Fs) (path full : List Char) (ops : List FsOp) :
    Prop :=
  ∀ pre suf, ops = pre ++ suf →
    fsGet (runFsOps fs0 pre) path = fsGet fs0 path ∨
    fsGet (runFsOps fs0 pre) path = some full

/-! ## Worker pool (C9)

`WorkerPool` in `app/services/worker_pool.py`.  A trace of completed
`acquire_worker` / `release_worker` calls is replayed in completion order:
the `asyncio.Semaphore` lets an `acquire` complete only while it has a free
slot, and the claim's scope restricts traces to those in which every release
follows a matching acquire. -/

structure WorkerPoolState where
  max_workers : Nat
  /-- the internal `asyncio.Semaphore` counter. -/
  sem_value : Nat
  current_busy_slots : Int
  total_tasks_acquired : Nat
  total_tasks_released : Nat
  deriving DecidableEq, Repr

/-- `WorkerPool.__init__` (worker_pool.py lines 13-23).  The parameter is
the effective configured value after the
`max_workers or settings.MAX_CONCURRENT_JOBS` fallback; a value ≤ 0 is
corrected to 1, and the semaphore starts full. -/
def initWorkerPool (maxWorkers : Nat) : WorkerPoolState :=
  let mw := if maxWorkers = 0 then 1 else maxWorkers
  ⟨mw, mw, 0, 0, 0⟩

inductive PoolOp
  | acquire
  | release
  deriving DecidableEq, Repr

/-- State change of a completed `acquire_worker` (lines 25-32). -/
def acquireWorker (s : WorkerPoolState) : WorkerPoolState :=
  { s with sem_value := s.sem_value - 1,
           current_busy_slots := s.current_busy_slots + 1,
           total_tasks_acquired := s.total_tasks_acquired + 1 }

/-- State change of `release_worker` (lines 34-40). -/
def releaseWorker (s : WorkerPoolState) : WorkerPoolState :=
  { s with sem_value := s.sem_value + 1,
           current_busy_slots := s.current_busy_slots - 1,
           total_tasks_released := s.total_tasks_released + 1 }

/-- Replay a completion-ordered operation trace.  `none` marks a trace
outside the modelled scope: an `acquire` cannot complete while the semaphore
is empty, and a `release` without a prior matching `acquire` is excluded by
the property's hypothesis. -/
def runPool : WorkerPoolState → List PoolOp → Option WorkerPoolState
  | s, [] => some s
  | s, .acquire :: ops =>
    if s.sem_value = 0 then none else runPool (acquireWorker s) ops
  | s, .release :: ops =>
    if s.total_tasks_acquired ≤ s.total_tasks_released then none
    else runPool (releaseWorker s) ops

/-- The `available_slots` property (lines 42-45). -/
def availableSlots (s : WorkerPoolState) : Int :=
  (s.max_workers : Int) - s.current_busy_slots

/-- The dictionary returned by `get_metrics` (lines 55-62). -/
structure PoolMetrics where
  max_workers : Nat
  current_busy_slots : Int
  available_slots : Int
  total_tasks_acquired : Nat
  total_tasks_released : Nat
  deriving DecidableEq, Repr

def get_metrics (s : WorkerPoolState) : PoolMetrics :=
  ⟨s.max_workers, s.current_busy_slots, availableSlots s,
   s.total_tasks_acquired, s.total_tasks_released⟩

/-! ## Processing manager execution wrapper (C7)

`ProcessingManager._execute_job` in `app/services/processing_manager.py`
(lines 49-64). -/

structure ManagerCounters where
  jobs_succeeded_count : Nat
  jobs_failed_count : Nat
  deriving DecidableEq, Repr

/-- Outcome of `await self.process_func(**job_details)`: normal return, or an
exception with its message. -/
inductive ProcessOutcome
  | completed
  | raised (e : List Char)
  deriving DecidableEq, Repr

/-- The `finally` block's bookkeeping: how many `worker_pool.release_worker`
and `job_queue.task_done` calls ran. -/
structure ExecBookkeeping where
  worker_releases : Nat
  queue_task_dones : Nat
  deriving DecidableEq, Repr

/-- The `try` body of `_execute_job` (lines 52-55): run the process function
and count the success; a raise propagates out of the body. -/
def executeJobBody (c : ManagerCounters) :
    ProcessOutcome → Except (List Char) ManagerCounters
  | .completed => .ok { c with jobs_succeeded_count := c.jobs_succeeded_count + 1 }
  | .raised e => .error e

/-- `_execute_job` (lines 49-64): the `except Exception` handler counts the
failure and swallows the exception, and the `finally` block always releases
the worker slot and marks the queue item done.  The `Except` in the result
records whether an exception escapes the wrapper. -/
def execute_job (c : ManagerCounters) (outcome : ProcessOutcome) :
    Except (List Char) ManagerCounters × ExecBookkeeping :=
  let handled : Except (List Char) ManagerCounters :=
    match executeJobBody c outcome with
    | .ok c2 => .ok c2
    | .error _ => .ok { c with jobs_failed_count := c.jobs_failed_count + 1 }
  (handled, ⟨1, 1⟩)

/-! ## SVG coordinate validation (C6, C10)

`validate_coordinates_with_svg` and its helpers in
`app/services/pptx_processor.py` (lines 886-1363).  XML parsing
(`_extract_svg_dimensions` / `_extract_svg_text_elements`) is I/O plus
regex plumbing over the renderer's file; its outcome — the parsed dimension
info and text elements, or the raised error — enters as the `SvgOutcome`
environment value. -/

/-- The shape kinds `extract_shapes_enhanced` produces (`ShapeType` in
`app/models/schemas.py`, restricted to the constructors that reach
validation). -/
inductive ShapeKind
  | text
  | image
  deriving DecidableEq, Repr

/-- A `SlideShape` record, restricted to the fields validation reads or
writes. -/
structure SlideShape where
  shape_id : List Char
  shape_type : ShapeKind
  original_text : Option (List Char)
  x_coordinate : Int
  y_coordinate : Int
  width : Int
  height : Int
  coordinate_validation_score : Option Frac
  svg_matched : Option Bool
  svg_original_x : Option Frac
  svg_original_y : Option Frac
  coordinate_source : List Char
  deriving DecidableEq, Repr

/-- One SVG text element as produced by `_extract_svg_text_elements`. -/
structure SvgTextElem where
  text : List Char
  x : Frac
  y : Frac
  width : Option Frac
  height : Option Frac
  deriving DecidableEq, Repr

/-- The dimension info produced by `_extract_svg_dimensions` (unit
conversion already applied; `viewbox` is the four viewBox numbers). -/
structure SvgInfo where
  width : Option Frac
  height : Option Frac
  viewbox : Option (Frac × Frac × Frac × Frac)
  deriving DecidableEq, Repr

structure TransformInfo where
  scale_x : Frac
  scale_y : Frac
  offset_x : Frac
  offset_y : Frac
  needs_transform : Bool
  deriving DecidableEq, Repr

/-- Python truthiness of the optional float dimensions (`None` and `0.0` are
falsy). -/
def fracTruthy : Option Frac → Bool
  | none => false
  | some q => q.num ≠ 0

/-- `_calculate_coordinate_transform` (pptx_processor.py lines 1083-1106):
scale factors from the SVG dimensions over the slide's pixel dimensions,
`needs_transform` when either scale deviates from 1 by more than 0.001, and
the viewBox minimum as offset when a viewBox is present. -/
def calculate_coordinate_transform (svg : SvgInfo) (slideWpx slideHpx : Int) :
    TransformInfo :=
  if fracTruthy svg.width ∧ fracTruthy svg.height then
    let sx := Frac.div (svg.width.getD ⟨0, 1⟩) ⟨slideWpx, 1⟩
    let sy := Frac.div (svg.height.getD ⟨0, 1⟩) ⟨slideHpx, 1⟩
    let needs := Frac.blt ⟨1, 1000⟩ (Frac.abs (Frac.sub sx ⟨1, 1⟩)) ||
      Frac.blt ⟨1, 1000⟩ (Frac.abs (Frac.sub sy ⟨1, 1⟩))
    match svg.viewbox with
    | some (vx, vy, _, _) => ⟨sx, sy, vx, vy, needs⟩
    | none => ⟨sx, sy, ⟨0, 1⟩, ⟨0, 1⟩, needs⟩
  else
    ⟨⟨1, 1⟩, ⟨1, 1⟩, ⟨0, 1⟩, ⟨0, 1⟩, false⟩

def toLowerList (l : List Char) : List Char := l.map Char.toLower

/-- Helper for `reSubWs`, with explicit fuel (always sufficient: each call
consumes at least one character). -/
def reSubWsAux : Nat → List Char → List Char
  | 0, l => l
  | _ + 1, [] => []
  | fuel + 1, c :: cs =>
    if isWs c then ' ' :: reSubWsAux fuel (cs.dropWhile isWs)
    else c :: reSubWsAux fuel cs

/-- Python `re.sub(r'\s+', ' ', s)`: each maximal whitespace run becomes a
single space. -/
def reSubWs (l : List Char) : List Char := reSubWsAux (l.length + 1) l

/-- Distinct elements of `a` also in `b`: Python `set(a) & set(b)` counted by
size. -/
def distinctInter (a b : List (List Char)) : List (List Char) :=
  a.dedup.filter (fun x => b.contains x)

/-- Python `set(a) | set(b)` counted by size. -/
def distinctUnion (a b : List (List Char)) : List (List Char) :=
  (a ++ b).dedup

def distinctInterChars (a b : List Char) : List Char :=
  a.dedup.filter (fun x => b.contains x)

def distinctUnionChars (a b : List Char) : List Char := (a ++ b).dedup

/-- The result dictionary of `_find_best_svg_text_match`. -/
structure MatchResult where
  score : Frac
  best : Option SvgTextElem
  strategy : List Char
  deriving DecidableEq, Repr

/-- Strategy 2 of `_find_best_svg_text_match` (lines 1264-1269):
case-insensitive exact match at score 0.98. -/
def strategyCaseInsensitive (shapeClean svgClean : List Char) (e : SvgTextElem)
    (best : MatchResult) : MatchResult :=
  if toLowerList shapeClean = toLowerList svgClean ∧
      Frac.blt best.score ⟨98, 100⟩ then
    ⟨⟨98, 100⟩, some e, "case_insensitive_exact".toList⟩
  else best

/-- Strategy 3 (lines 1271-1278): whitespace-normalised match at score
0.95. -/
def strategyNormalizedWs (shapeClean svgClean : List Char) (e : SvgTextElem)
    (best : MatchResult) : MatchResult :=
  if reSubWs shapeClean = reSubWs svgClean ∧ Frac.blt best.score ⟨95, 100⟩ then
    ⟨⟨95, 100⟩, some e, "normalized_whitespace".toList⟩
  else best

/-- The overlap ratio of strategy 4 (lines 1283-1286):
`len(shorter) / len(longer) * 0.9`. -/
def substringOverlapScore (shapeClean svgClean : List Char) : Frac :=
  if shapeClean.length > svgClean.length then
    Frac.mul (Frac.div (Frac.ofNat svgClean.length)
      (Frac.ofNat shapeClean.length)) ⟨9, 10⟩
  else
    Frac.mul (Frac.div (Frac.ofNat shapeClean.length)
      (Frac.ofNat svgClean.length)) ⟨9, 10⟩

/-- Strategy 4 (lines 1280-1290): substring containment, accepted only above
0.7. -/
def strategySubstring (shapeClean svgClean : List Char) (e : SvgTextElem)
    (best : MatchResult) : MatchResult :=
  if shapeClean <:+: svgClean ∨ svgClean <:+: shapeClean then
    if Frac.blt best.score (substringOverlapScore shapeClean svgClean) ∧
        Frac.blt ⟨7, 10⟩ (substringOverlapScore shapeClean svgClean) then
      ⟨substringOverlapScore shapeClean svgClean, some e,
       "substring_match".toList⟩
    else best
  else best

/-- The word-set similarity of strategy 5 (lines 1296-1299):
`|common| / |total| * 0.85` over lower-cased word sets. -/
def wordSimilarityScore (shapeClean svgClean : List Char) : Frac :=
  Frac.mul (Frac.div
    (Frac.ofNat (distinctInter (pySplitWs (toLowerList shapeClean))
      (pySplitWs (toLowerList svgClean))).length)
    (Frac.ofNat (distinctUnion (pySplitWs (toLowerList shapeClean))
      (pySplitWs (toLowerList svgClean))).length)) ⟨85, 100⟩

/-- Strategy 5 (lines 1292-1304): word-set similarity, accepted only above
0.6. -/
def strategyWordSim (shapeClean svgClean : List Char) (e : SvgTextElem)
    (best : MatchResult) : MatchResult :=
  if pySplitWs (toLowerList shapeClean) ≠ [] ∧
      pySplitWs (toLowerList svgClean) ≠ [] then
    if Frac.blt best.score (wordSimilarityScore shapeClean svgClean) ∧
        Frac.blt ⟨6, 10⟩ (wordSimilarityScore shapeClean svgClean) then
      ⟨wordSimilarityScore shapeClean svgClean, some e,
       "word_similarity".toList⟩
    else best
  else best

/-- The character-set similarity of strategy 6 (lines 1308-1315):
`|common| / |total| * 0.75` over lower-cased character sets. -/
def charSimilarityScore (shapeClean svgClean : List Char) : Frac :=
  Frac.mul (Frac.div
    (Frac.ofNat (distinctInterChars (toLowerList shapeClean)
      (toLowerList svgClean)).length)
    (Frac.ofNat (distinctUnionChars (toLowerList shapeClean)
      (toLowerList svgClean)).length)) ⟨75, 100⟩

/-- Strategy 6 (lines 1306-1320): character-set similarity for texts longer
than 5 characters, accepted only above 0.5. -/
def strategyCharSim (shapeClean svgClean : List Char) (e : SvgTextElem)
    (best : MatchResult) : MatchResult :=
  if shapeClean.length > 5 ∧ svgClean.length > 5 then
    if distinctUnionChars (toLowerList shapeClean) (toLowerList svgClean) ≠ [] then
      if Frac.blt best.score (charSimilarityScore shapeClean svgClean) ∧
          Frac.blt ⟨1, 2⟩ (charSimilarityScore shapeClean svgClean) then
        ⟨charSimilarityScore shapeClean svgClean, some e,
         "character_similarity".toList⟩
      else best
    else best
  else best

/-- Strategies 2-6 of `_find_best_svg_text_match` (pptx_processor.py lines
1264-1320), applied in source order to one candidate element, updating the
best match so far.  Strategy 1 (exact match) returns from the loop and is
handled by `findBestLoop`. -/
def applyMatchStrategies (shapeClean svgClean : List Char) (e : SvgTextElem)
    (best0 : MatchResult) : MatchResult :=
  strategyCharSim shapeClean svgClean e
    (strategyWordSim shapeClean svgClean e
      (strategySubstring shapeClean svgClean e
        (strategyNormalizedWs shapeClean svgClean e
          (strategyCaseInsensitive shapeClean svgClean e best0))))

/-- The candidate loop of `_find_best_svg_text_match`: an exact string match
returns score 1.0 immediately; otherwise the remaining strategies update the
running best. -/
def findBestLoop (shapeClean : List Char) :
    List SvgTextElem → MatchResult → MatchResult
  | [], best => best
  | e :: rest, best =>
    let svgClean := pyStrip e.text
    if shapeClean = svgClean then ⟨⟨1, 1⟩, some e, "exact_match".toList⟩
    else findBestLoop shapeClean rest (applyMatchStrategies shapeClean svgClean e best)

/-- `_find_best_svg_text_match` (pptx_processor.py lines 1243-1326). -/
def find_best_svg_text_match (shapeText : List Char)
    (elems : List SvgTextElem) : MatchResult :=
  if shapeText = [] ∨ elems = [] then ⟨⟨0, 1⟩, none, "no_candidates".toList⟩
  else findBestLoop (pyStrip shapeText) elems ⟨⟨0, 1⟩, none, "no_match".toList⟩

/-- `_apply_coordinate_validation` (pptx_processor.py lines 1329-1363):
replace the shape's coordinates by the matched element's SVG coordinates,
transformed back through scale and offset only when `needs_transform` is
set, and record the validation metadata.  (`mr.best` is `some` whenever the
callers' `score > 0` guard holds; the `none` branch mirrors the fact that
the source would fault rather than produce a value there.) -/
def apply_coordinate_validation (shape : SlideShape) (mr : MatchResult)
    (t : TransformInfo) : SlideShape :=
  match mr.best with
  | none => shape
  | some svg =>
    let adjustedX :=
      if t.needs_transform then pyInt (Frac.div (Frac.sub svg.x t.offset_x) t.scale_x)
      else pyInt svg.x
    let adjustedY :=
      if t.needs_transform then pyInt (Frac.div (Frac.sub svg.y t.offset_y) t.scale_y)
      else pyInt svg.y
    { shape with
      x_coordinate := adjustedX
      y_coordinate := adjustedY
      coordinate_validation_score := some mr.score
      svg_matched := some true
      svg_original_x := some svg.x
      svg_original_y := some svg.y
      coordinate_source := "svg_validation (".toList ++ mr.strategy ++ ")".toList }

/-- `_mark_shapes_as_unvalidated` (pptx_processor.py lines 1005-1018). -/
def mark_shapes_as_unvalidated (shapes : List SlideShape) (reason : List Char) :
    List SlideShape :=
  shapes.map fun s =>
    { s with
      coordinate_validation_score := none
      svg_matched := some false
      coordinate_source := "pptx_extraction_only (".toList ++ reason ++ ")".toList
      svg_original_x := none
      svg_original_y := none }

/-- Python truthiness of `shape.original_text`. -/
def textTruthy : Option (List Char) → Bool
  | none => false
  | some t => ¬ t.isEmpty

/-- Per-shape classification used for the validation statistics. -/
inductive ShapeMatchClass
  | nonText
  | matchedExact
  | matchedFuzzy
  | unmatched
  deriving DecidableEq, Repr

/-- The text-shape branch of the validation loop (lines 954-985): look for
the best SVG text match (`mr` in the source, recomputed here — the calls are
pure) and either apply the coordinate validation (counting the match as
exact at score ≥ 0.95, else fuzzy) or keep the original coordinates marked
unmatched. -/
def validateTextShape (t : TransformInfo) (elems : List SvgTextElem)
    (shape : SlideShape) : SlideShape × ShapeMatchClass :=
  if Frac.blt ⟨0, 1⟩
      (find_best_svg_text_match (shape.original_text.getD []) elems).score then
    (apply_coordinate_validation shape
      (find_best_svg_text_match (shape.original_text.getD []) elems) t,
     if Frac.blt (find_best_svg_text_match (shape.original_text.getD [])
         elems).score ⟨95, 100⟩ then
       .matchedFuzzy
     else .matchedExact)
  else
    ({ shape with
        coordinate_validation_score := some ⟨0, 1⟩
        svg_matched := some false
        coordinate_source := "pptx_extraction".toList
        svg_original_x := none
        svg_original_y := none },
     .unmatched)

/-- The per-shape body of the validation loop (pptx_processor.py lines
942-985). -/
def validateShape (t : TransformInfo) (elems : List SvgTextElem)
    (shape : SlideShape) : SlideShape × ShapeMatchClass :=
  if shape.shape_type ≠ ShapeKind.text ∨ ¬ textTruthy shape.original_text then
    ({ shape with
        coordinate_validation_score := none
        svg_matched := some false
        coordinate_source := "pptx_extraction".toList },
     .nonText)
  else
    validateTextShape t elems shape

/-- The `validation_stats` dictionary. -/
structure ValidationStats where
  exact_matches : Nat
  fuzzy_matches : Nat
  no_matches : Nat
  deriving DecidableEq, Repr

def bumpStats (st : ValidationStats) : ShapeMatchClass → ValidationStats
  | .nonText => st
  | .matchedExact => { st with exact_matches := st.exact_matches + 1 }
  | .matchedFuzzy => { st with fuzzy_matches := st.fuzzy_matches + 1 }
  | .unmatched => { st with no_matches := st.no_matches + 1 }

def validateFoldStep (t : TransformInfo) (elems : List SvgTextElem)
    (acc : List SlideShape × ValidationStats) (shape : SlideShape) :
    List SlideShape × ValidationStats :=
  let r := validateShape t elems shape
  (acc.1 ++ [r.1], bumpStats acc.2 r.2)

/-- Outcome of locating and parsing the slide's SVG (pptx_processor.py lines
896-934): the file is missing, the parse/extraction raised, or it produced
dimension info and text elements. -/
inductive SvgOutcome
  | fileMissing
  | parseFailure (msg : List Char)
  | parsed (svg : SvgInfo) (elems : List SvgTextElem)
  deriving DecidableEq, Repr

/-- The EMU-to-pixel conversion of lines 921-922:
`int((emu / 914400) * 96)`. -/
def emuToPx (emu : Nat) : Int :=
  pyInt (Frac.mul (Frac.div (Frac.ofNat emu) (Frac.ofNat 914400)) (Frac.ofNat 96))

/-- `validate_coordinates_with_svg` (pptx_processor.py lines 886-1002).  A
missing file or a raised parse error falls back to
`_mark_shapes_as_unvalidated`; a zero slide pixel dimension makes the scale
division raise `ZeroDivisionError`, which the outer `except` turns into the
same fallback. -/
def validate_coordinates_with_svg (shapes : List SlideShape)
    (outcome : SvgOutcome) (slideWidthEmu slideHeightEmu : Nat) :
    List SlideShape :=
  match outcome with
  | .fileMissing => mark_shapes_as_unvalidated shapes ("svg_file_missing".toList)
  | .parseFailure m =>
    mark_shapes_as_unvalidated shapes ("validation_error: ".toList ++ m)
  | .parsed svg elems =>
    let wpx := emuToPx slideWidthEmu
    let hpx := emuToPx slideHeightEmu
    if fracTruthy svg.width ∧ fracTruthy svg.height ∧ (wpx = 0 ∨ hpx = 0) then
      mark_shapes_as_unvalidated shapes ("validation_error: division by zero".toList)
    else
      let t := calculate_coordinate_transform svg wpx hpx
      (shapes.foldl (validateFoldStep t elems) ([], ⟨0, 0, 0⟩)).1

/-- Modelled from the claim wording (C6): a matched shape's new coordinate is
the matched element's SVG coordinate transformed back into slide units using
the scale factor and offset derived from the SVG viewport versus the slide's
native dimensions. -/
def claimedTransformX (t : TransformInfo) (svgx : Frac) : Int :=
  pyInt (Frac.div (Frac.sub svgx t.offset_x) t.scale_x)

/-! ## Concrete instances used by witnesses and counterexamples -/

/-- Placeholder default used with `List.getD` when stating index-wise
properties. -/
def blankShape : SlideShape :=
  ⟨[], .text, none, 0, 0, 0, 0, none, none, none, none, []⟩

/-- A concrete stand-in digest function over bytes, used to instantiate the
hash-parametric cache-key theorems. -/
def digestBytesDemo : List UInt8 → List Char := fun bs => (toString bs.length).toList

/-- A concrete stand-in digest function over strings. -/
def digestStrDemo : List Char → List Char := fun cs => (toString cs.length).toList

/-- A run whose renderer produced 4 files for 5 slides. -/
def envMismatch : ProcEnv :=
  ⟨some "k".toList, false, true, 5, 4, none, .ok "u".toList⟩

/-- A fully successful 4-slide run. -/
def envSuccess : ProcEnv :=
  ⟨some "k".toList, false, true, 4, 4, none, .ok "u".toList⟩

/-- A text shape whose document-extracted position is (5, 5). -/
def shapeA : SlideShape :=
  ⟨"s1".toList, .text, some "Hello".toList, 5, 5, 100, 40, none, none, none,
   none, "pptx_extraction".toList⟩

/-- Parsed SVG dimensions: 960 x 540 pixels with a viewBox whose minimum x
is 10 — so both scale factors are exactly 1 while the offset is not 0. -/
def svgInfoA : SvgInfo :=
  ⟨some ⟨960, 1⟩, some ⟨540, 1⟩, some (⟨10, 1⟩, ⟨0, 1⟩, ⟨960, 1⟩, ⟨540, 1⟩)⟩

/-- One rendered text element matching `shapeA` exactly, at SVG x = 10. -/
def elemsA : List SvgTextElem :=
  [⟨"Hello".toList, ⟨10, 1⟩, ⟨0, 1⟩, none, none⟩]

/-- Slide dimensions in EMU converting to exactly 960 x 540 pixels. -/
def slideWidthEmuA : Nat := 9144000

def slideHeightEmuA : Nat := 5143500

/-! ## Theorems -/

/-- C1: the text-segmentation round trip fails on the code.  For the input
"Hello there. Goodbye now." with `max_segment_length = 10`, the function
returns the two segments "Hello there" and "Goodbye now." (indices 0, 1):
`re.split(r'[.!?]+\s+', ...)` removes the matched separator, so the period
ending the first sentence is lost, and the concatenation of the segments in
`segment_index` order — whether joined with spaces or joined directly —
differs from the original text even after collapsing whitespace. -/
theorem C1_segmentation_drops_sentence_punctuation :
    (segment_text_for_translation "Hello there. Goodbye now.".toList 10).map
        TextSegment.segment_index = [0, 1] ∧
    (segment_text_for_translation "Hello there. Goodbye now.".toList 10).map
        TextSegment.text = ["Hello there".toList, "Goodbye now.".toList] ∧
    collapseWs (joinWithSpace
        ((segment_text_for_translation "Hello there. Goodbye now.".toList 10).map
          TextSegment.text)) ≠
      collapseWs "Hello there. Goodbye now.".toList ∧
    collapseWs (List.flatten
        ((segment_text_for_translation "Hello there. Goodbye now.".toList 10).map
          TextSegment.text)) ≠
      collapseWs "Hello there. Goodbye now.".toList := by
  decide

/-- C8: the translation priority of an extracted text shape is given by the
fixed rule table in the stated precedence order: 10 exactly for titles; 8
exactly for non-title subtitles; 7 exactly when neither and the word count
exceeds 20; 3 exactly when neither and the word count is below 5; 5 in the
remaining cases. -/
theorem C8_translation_priority_rule_table (is_title is_subtitle : Bool)
    (word_count : Nat) :
    (translationPriorityOf is_title is_subtitle word_count = 10 ↔
      is_title = true) ∧
    (translationPriorityOf is_title is_subtitle word_count = 8 ↔
      is_title = false ∧ is_subtitle = true) ∧
    (translationPriorityOf is_title is_subtitle word_count = 7 ↔
      is_title = false ∧ is_subtitle = false ∧ 20 < word_count) ∧
    (translationPriorityOf is_title is_subtitle word_count = 3 ↔
      is_title = false ∧ is_subtitle = false ∧ word_count < 5) ∧
    (translationPriorityOf is_title is_subtitle word_count = 5 ↔
      is_title = false ∧ is_subtitle = false ∧ 5 ≤ word_count ∧ word_count ≤ 20) := by
  unfold translationPriorityOf
  cases is_title <;> cases is_subtitle <;>
    refine ⟨?_, ?_, ?_, ?_, ?_⟩ <;> split_ifs <;> simp_all <;> omega

/-- C7: `_execute_job` never lets the process function's exception escape:
a normal return increments `jobs_succeeded_count` only, any raise increments
`jobs_failed_count` only and is swallowed (the wrapper's outcome is `ok` in
both cases), and in every case the `finally` block releases exactly one
worker slot and marks exactly one queue item done. -/
theorem C7_execute_job_swallows_and_releases (c : ManagerCounters)
    (e : List Char) :
    (execute_job c .completed).1 =
      .ok ⟨c.jobs_succeeded_count + 1, c.jobs_failed_count⟩ ∧
    (execute_job c (.raised e)).1 =
      .ok ⟨c.jobs_succeeded_count, c.jobs_failed_count + 1⟩ ∧
    (∀ o, (execute_job c o).2 = ⟨1, 1⟩) := by
  refine ⟨rfl, rfl, ?_⟩
  intro o
  cases o <;> rfl

/-- C3 (counterexample): `store_cached_result` is not atomic in the claimed
sense.  Storing the serialised entry "abc" under key "k" into an empty file
system succeeds, yet after the first of its operations — the truncating
`open(path, "w")` — an observer of the final path sees an empty file, which
is neither the pre-existing state (absent) nor the complete entry. -/
theorem C3_store_not_atomic_counterexample :
    (store_cached_result ⟨true, false⟩ "k".toList "abc".toList).1 = true ∧
    ¬ AtomicPutTrace [] (cacheFilePath "k".toList) "abc".toList
        (store_cached_result ⟨true, false⟩ "k".toList "abc".toList).2 := by
  refine ⟨rfl, ?_⟩
  intro h
  have h2 := h [FsOp.openTruncate (cacheFilePath "k".toList)]
    [FsOp.writeAll (cacheFilePath "k".toList) "abc".toList] (by decide)
  revert h2
  decide

/-- C3 (amended): `store_cached_result` returns a success boolean — `true`
exactly when the key is non-empty, the cache directory is usable and the
write does not raise (`IOError`/`TypeError` are caught and reported as
`false`) — but it persists by truncating and rewriting the cache file in
place at its final path: the successful trace is exactly
open-truncate-then-write, and no rename (hence no write-to-temp-then-rename
scheme) ever occurs, so a concurrent reader can observe a half-written
entry. -/
theorem C3_store_returns_bool_but_writes_in_place (env : StoreEnv)
    (key ser : List Char) :
    ((store_cached_result env key ser).1 = true ↔
      key ≠ [] ∧ env.cacheDirOk = true ∧ env.writeRaises = false) ∧
    (∀ op ∈ (store_cached_result env key ser).2,
      ∀ src dst, op ≠ .renameFile src dst) ∧
    ((store_cached_result env key ser).1 = true →
      (store_cached_result env key ser).2 =
        [.openTruncate (cacheFilePath key), .writeAll (cacheFilePath key) ser]) := by
  obtain ⟨dirOk, wr⟩ := env
  by_cases hk : key = [] <;> cases dirOk <;> cases wr <;>
    simp [store_cached_result, hk]

/-- Witness for C3 (amended) at the concrete store of "abc" under "k". -/
theorem C3_store_returns_bool_but_writes_in_place_witness :
    (store_cached_result ⟨true, false⟩ "k".toList "abc".toList).2 =
      [.openTruncate (cacheFilePath "k".toList),
       .writeAll (cacheFilePath "k".toList) "abc".toList] ∧
    FsOp.openTruncate (cacheFilePath "k".toList) ≠ FsOp.renameFile [] [] :=
  ⟨(C3_store_returns_bool_but_writes_in_place ⟨true, false⟩ "k".toList
      "abc".toList).2.2 (by decide),
   (C3_store_returns_bool_but_writes_in_place ⟨true, false⟩ "k".toList
      "abc".toList).2.1 _ (by decide) [] []⟩

/-- C2 (counterexample): the claim quantifies over every output count that
differs from the slide count, but when the renderer produces zero files for
a 5-slide document the raised message is the zero-output one, which
references neither the word "mismatch" nor either count. -/
theorem C2_zero_files_message_counterexample :
    ∃ e, svgGenerationOutcome 0 5 = .error e ∧ (0 : Nat) ≠ 5 ∧
      ¬ ("mismatch".toList <:+: e) ∧
      ¬ ("5".toList <:+: e) ∧ ¬ ("0".toList <:+: e) := by
  refine ⟨"LibreOffice SVG generation failed - no output files".toList, rfl, ?_⟩
  decide

/-- Helper for C5: the canonical parameter ordering depends only on the
multiset of key-value pairs, not on their insertion order. -/
theorem sortedParams_perm_eq {p q : List (List Char × List Char)}
    (h : p.Perm q) : sortedParams p = sortedParams q := by
  unfold sortedParams
  congr 1
  refine List.eq_of_perm_of_sorted ?_ (List.sorted_insertionSort _ _)
    (List.sorted_insertionSort _ _)
  exact ((List.perm_insertionSort _ _).trans (h.map toLex)).trans
    (List.perm_insertionSort _ _).symm

/-- C5: `generate_cache_key` is deterministic in the parameter order — for
any digest functions, any file state and any two parameter lists holding the
same key-value pairs (in any order) it returns the same key (determinism on
identical arguments is definitional in the pure model) — and it returns
`None` instead of raising when the file is missing or unreadable. -/
theorem C5_cache_key_order_independent_none_on_failure
    (shaBytes : List UInt8 → List Char) (shaStr : List Char → List Char)
    (f : FileState) (p q : List (List Char × List Char)) (h : p.Perm q) :
    generate_cache_key shaBytes shaStr f p =
      generate_cache_key shaBytes shaStr f q ∧
    generate_cache_key shaBytes shaStr .missing p = none ∧
    generate_cache_key shaBytes shaStr .unreadable p = none := by
  refine ⟨?_, rfl, rfl⟩
  unfold generate_cache_key paramString
  rw [sortedParams_perm_eq h]

/-- Witness for C5 at a concrete file content and a two-entry parameter
mapping given in both insertion orders. -/
theorem C5_cache_key_order_independent_none_on_failure_witness :
    generate_cache_key digestBytesDemo digestStrDemo (.readable [7, 7])
        [("a".toList, "1".toList), ("b".toList, "0".toList)] =
      generate_cache_key digestBytesDemo digestStrDemo (.readable [7, 7])
        [("b".toList, "0".toList), ("a".toList, "1".toList)] ∧
    generate_cache_key digestBytesDemo digestStrDemo .missing
        [("a".toList, "1".toList), ("b".toList, "0".toList)] = none ∧
    generate_cache_key digestBytesDemo digestStrDemo .unreadable
        [("a".toList, "1".toList), ("b".toList, "0".toList)] = none :=
  C5_cache_key_order_independent_none_on_failure digestBytesDemo digestStrDemo
    (.readable [7, 7]) [("a".toList, "1".toList), ("b".toList, "0".toList)]
    [("b".toList, "0".toList), ("a".toList, "1".toList)] (by decide)

/-- Helper for C9: the algebraic invariant linking the worker-pool counters
is preserved along any in-scope operation trace. -/
theorem runPool_invariant (ops : List PoolOp) :
    ∀ s s' : WorkerPoolState,
      s.current_busy_slots =
        (s.total_tasks_acquired : Int) - s.total_tasks_released →
      (s.sem_value : Int) = (s.max_workers : Int) - s.current_busy_slots →
      s.total_tasks_released ≤ s.total_tasks_acquired →
      runPool s ops = some s' →
      s'.current_busy_slots =
          (s'.total_tasks_acquired : Int) - s'.total_tasks_released ∧
        (s'.sem_value : Int) = (s'.max_workers : Int) - s'.current_busy_slots ∧
        s'.total_tasks_released ≤ s'.total_tasks_acquired := by
  induction ops with
  | nil =>
    intro s s' h1 h2 h3 hr
    simp only [runPool, Option.some.injEq] at hr
    subst hr
    exact ⟨h1, h2, h3⟩
  | cons op rest ih =>
    intro s s' h1 h2 h3 hr
    cases op with
    | acquire =>
      by_cases hz : s.sem_value = 0
      · simp [runPool, hz] at hr
      · rw [runPool, if_neg hz] at hr
        refine ih _ _ ?_ ?_ ?_ hr <;> simp [acquireWorker] <;> push_cast <;> omega
    | release =>
      by_cases hz : s.total_tasks_acquired ≤ s.total_tasks_released
      · simp [runPool, hz] at hr
      · rw [runPool, if_neg hz] at hr
        refine ih _ _ ?_ ?_ ?_ hr <;> simp [releaseWorker] <;> push_cast <;> omega

/-- C9: after any sequence of completed acquire/release operations in which
every release follows a matching acquire, the metrics stay mutually
consistent: `current_busy_slots = total_tasks_acquired - total_tasks_released`,
`available_slots = max_workers - current_busy_slots`, and the busy count
stays between 0 and `max_workers`. -/
theorem C9_worker_pool_metrics_consistent (m : Nat) (ops : List PoolOp)
    (s : WorkerPoolState) (h : runPool (initWorkerPool m) ops = some s) :
    (get_metrics s).current_busy_slots =
      (s.total_tasks_acquired : Int) - (s.total_tasks_released : Int) ∧
    (get_metrics s).available_slots =
      (s.max_workers : Int) - s.current_busy_slots ∧
    0 ≤ s.current_busy_slots ∧ s.current_busy_slots ≤ (s.max_workers : Int) := by
  have hinv := runPool_invariant ops (initWorkerPool m) s
    (by simp [initWorkerPool]) (by simp [initWorkerPool]) (by simp [initWorkerPool]) h
  obtain ⟨h1, h2, h3⟩ := hinv
  have hsem : (0 : Int) ≤ (s.sem_value : Int) := by positivity
  exact ⟨h1, rfl, by omega, by omega⟩

/-- Witness for C9 after two completed acquires and one release on a pool of
capacity 2. -/
theorem C9_worker_pool_metrics_consistent_witness :
    (get_metrics ⟨2, 1, 1, 2, 1⟩).current_busy_slots =
      ((2 : Nat) : Int) - ((1 : Nat) : Int) ∧
    (get_metrics ⟨2, 1, 1, 2, 1⟩).available_slots = ((2 : Nat) : Int) - (1 : Int) ∧
    0 ≤ (1 : Int) ∧ (1 : Int) ≤ ((2 : Nat) : Int) :=
  C9_worker_pool_metrics_consistent 2 [.acquire, .acquire, .release]
    ⟨2, 1, 1, 2, 1⟩ (by decide)

/-- Helper for C2: whenever the SVG-generation step raises, the cache-miss
body records exactly the three progress updates and then the failed status
carrying the raised message. -/
theorem processMiss_svg_error (env : ProcEnv) (e : List Char)
    (hlo : env.libreofficeAvailable = true)
    (hsvg : svgGenerationOutcome env.svgFilesFound env.slideCount = .error e) :
    processMiss env = [statusEv .processing 1 none, statusEv .processing 5 none,
      statusEv .processing 10 none, statusEv .failed 0 (some e)] := by
  simp [processMiss, processOpened, hlo, hsvg, failEvents]

/-- Helper for C2: on a cache miss, `process_pptx` runs the cache-miss
body. -/
theorem process_pptx_of_miss (env : ProcEnv)
    (hmiss : ¬ (env.cacheKey.isSome = true ∧ env.cacheHit = true)) :
    process_pptx env = processMiss env := by
  unfold process_pptx
  cases hck : env.cacheKey with
  | none => rfl
  | some k =>
    have : env.cacheHit = false := by
      cases hhit : env.cacheHit
      · rfl
      · exact absurd ⟨by simp [hck], hhit⟩ hmiss
    simp [this]

/-- C2 (amended): whenever the renderer's output-file count differs from the
slide count, the SVG-generation step raises, `process_pptx` records
JobStatus `failed` with exactly the raised message as its final status
update, and no cache store happens in the run; the raised message is the
"SVG count mismatch: expected ..., got ..." one referencing both counts in
every case except two, which carry their own messages: zero output files
("no output files"), and a single output file for a multi-slide document
("single SVG instead of individual slides"). -/
theorem C2_renderer_mismatch_fails_job_and_skips_cache (env : ProcEnv)
    (hmiss : ¬ (env.cacheKey.isSome = true ∧ env.cacheHit = true))
    (hlo : env.libreofficeAvailable = true)
    (hne : env.svgFilesFound ≠ env.slideCount) :
    ∃ e, svgGenerationOutcome env.svgFilesFound env.slideCount = .error e ∧
      process_pptx env = [statusEv .processing 1 none, statusEv .processing 5 none,
        statusEv .processing 10 none, statusEv .failed 0 (some e)] ∧
      cacheStoreCount (jobTrace env) = 0 ∧
      (statusUpdates (jobTrace env)).getLast? = some ⟨.failed, 0, some e⟩ ∧
      (env.svgFilesFound ≠ 0 →
        ¬ (env.svgFilesFound = 1 ∧ env.slideCount > 1) →
        e = ("SVG count mismatch: expected " ++ toString env.slideCount ++
          ", got " ++ toString env.svgFilesFound).toList) := by
  have hsvg : ∃ e, svgGenerationOutcome env.svgFilesFound env.slideCount = .error e ∧
      (env.svgFilesFound ≠ 0 →
        ¬ (env.svgFilesFound = 1 ∧ env.slideCount > 1) →
        e = ("SVG count mismatch: expected " ++ toString env.slideCount ++
          ", got " ++ toString env.svgFilesFound).toList) := by
    by_cases h0 : env.svgFilesFound = 0
    · refine ⟨"LibreOffice SVG generation failed - no output files".toList, ?_,
        fun hf0 _ => absurd h0 hf0⟩
      unfold svgGenerationOutcome
      rw [if_pos h0]
    · by_cases h1 : env.svgFilesFound = 1 ∧ env.slideCount > 1
      · refine ⟨"LibreOffice generated single SVG instead of individual slides".toList,
          ?_, fun _ hns => absurd h1 hns⟩
        unfold svgGenerationOutcome
        rw [if_neg h0, if_pos h1]
      · refine ⟨("SVG count mismatch: expected " ++ toString env.slideCount ++
          ", got " ++ toString env.svgFilesFound).toList, ?_, fun _ _ => rfl⟩
        unfold svgGenerationOutcome
        rw [if_neg h0, if_neg h1, if_neg hne]
  obtain ⟨e, he, hmsg⟩ := hsvg
  have hpm := processMiss_svg_error env e hlo he
  have hpp : process_pptx env = [statusEv .processing 1 none,
      statusEv .processing 5 none, statusEv .processing 10 none,
      statusEv .failed 0 (some e)] := by
    rw [process_pptx_of_miss env hmiss, hpm]
  refine ⟨e, he, hpp, ?_, ?_, hmsg⟩
  · simp [cacheStoreCount, jobTrace, hpp, statusEv]
  · simp [statusUpdates, jobTrace, hpp, statusEv]

/-- Witness for C2 (amended): a 5-slide document whose renderer produced
only 4 files. -/
theorem C2_renderer_mismatch_fails_job_and_skips_cache_witness :
    ∃ e, svgGenerationOutcome envMismatch.svgFilesFound envMismatch.slideCount =
        .error e ∧
      process_pptx envMismatch = [statusEv .processing 1 none,
        statusEv .processing 5 none, statusEv .processing 10 none,
        statusEv .failed 0 (some e)] ∧
      cacheStoreCount (jobTrace envMismatch) = 0 ∧
      (statusUpdates (jobTrace envMismatch)).getLast? = some ⟨.failed, 0, some e⟩ ∧
      (envMismatch.svgFilesFound ≠ 0 →
        ¬ (envMismatch.svgFilesFound = 1 ∧ envMismatch.slideCount > 1) →
        e = ("SVG count mismatch: expected " ++ toString envMismatch.slideCount ++
          ", got " ++ toString envMismatch.svgFilesFound).toList) :=
  C2_renderer_mismatch_fails_job_and_skips_cache envMismatch (by decide) rfl
    (by decide)

theorem pow2_eq (k : Nat) : pow2 k = 2 ^ k := by
  induction k with
  | zero => rfl
  | succ k ih => rw [pow2, ih, pow_succ]; ring

theorem pow2_pos (k : Nat) : 0 < pow2 k := by
  rw [pow2_eq]; positivity

theorem natLog2F_spec : ∀ (fuel n : Nat), 0 < n → n ≤ fuel →
    2 ^ (natLog2F fuel n) ≤ n ∧ n < 2 ^ (natLog2F fuel n + 1) := by
  intro fuel
  induction fuel with
  | zero => intro n h1 h2; omega
  | succ fuel ih =>
    intro n h1 h2
    by_cases h : 2 ≤ n
    · have hrec := ih (n / 2) (by omega) (by omega)
      rw [natLog2F, if_pos h]
      rcases hrec with ⟨ha, hb⟩
      rw [pow_succ] at hb ⊢
      rw [pow_succ]
      omega
    · rw [natLog2F, if_neg h]
      simp only [pow_zero, pow_one]
      omega

theorem natLog2_spec (n : Nat) (h : 0 < n) :
    2 ^ (natLog2 n) ≤ n ∧ n < 2 ^ (natLog2 n + 1) :=
  natLog2F_spec n n h le_rfl

theorem floor_cast_div (a b : ℤ) (hb : 0 < b) :
    ⌊(a : ℚ) / (b : ℚ)⌋ = a / b := by
  have h1 : ((b.toNat : ℕ) : ℤ) = b := Int.toNat_of_nonneg hb.le
  have h2 : ((b.toNat : ℕ) : ℚ) = (b : ℚ) := by exact_mod_cast h1
  calc ⌊(a : ℚ) / (b : ℚ)⌋ = ⌊(a : ℚ) / ((b.toNat : ℕ) : ℚ)⌋ := by rw [h2]
    _ = a / ((b.toNat : ℕ) : ℤ) := Rat.floor_intCast_div_natCast a b.toNat
    _ = a / b := by rw [h1]

theorem fdiv_eq_floor (f : Frac) (hd : 0 < f.den) :
    Int.fdiv f.num f.den = ⌊f.toQ⌋ := by
  rw [Int.fdiv_eq_ediv _ hd.le, Frac.toQ, floor_cast_div _ _ hd]

theorem fract_toQ (f : Frac) (hd : 0 < f.den) :
    Int.fract f.toQ =
      ((f.num - f.den * Int.fdiv f.num f.den : ℤ) : ℚ) / (f.den : ℚ) := by
  have hdq : ((f.den : ℤ) : ℚ) ≠ 0 := by exact_mod_cast hd.ne'
  rw [← Int.self_sub_floor, ← fdiv_eq_floor f hd]
  push_cast
  rw [Frac.toQ]
  field_simp

theorem rheF_eq_rheQ (f : Frac) (hd : 0 < f.den) : rheF f = rheQ f.toQ := by
  have hdq : (0 : ℚ) < (f.den : ℚ) := by exact_mod_cast hd
  have hk := fdiv_eq_floor f hd
  have hfr := fract_toQ f hd
  have key : ∀ r : ℤ, ((r : ℚ) / (f.den : ℚ) < 1 / 2 ↔ 2 * r < f.den) := by
    intro r
    rw [div_lt_div_iff₀ hdq (by norm_num : (0:ℚ) < 2)]
    constructor
    · intro h
      have hcast : ((2 * r : ℤ) : ℚ) < ((f.den : ℤ) : ℚ) := by push_cast; linarith
      exact_mod_cast hcast
    · intro h
      have h' : ((2 * r : ℤ) : ℚ) < ((f.den : ℤ) : ℚ) := by exact_mod_cast h
      push_cast at h'
      linarith
  have key2 : ∀ r : ℤ, (1 / 2 < (r : ℚ) / (f.den : ℚ) ↔ f.den < 2 * r) := by
    intro r
    rw [div_lt_div_iff₀ (by norm_num : (0:ℚ) < 2) hdq]
    constructor
    · intro h
      have hcast : ((f.den : ℤ) : ℚ) < ((2 * r : ℤ) : ℚ) := by push_cast; linarith
      exact_mod_cast hcast
    · intro h
      have h' : ((f.den : ℤ) : ℚ) < ((2 * r : ℤ) : ℚ) := by exact_mod_cast h
      push_cast at h'
      linarith
  have c1 : (2 * (f.num - f.den * Int.fdiv f.num f.den) < f.den) ↔
      Int.fract f.toQ < 1 / 2 := by
    rw [hfr]; exact (key _).symm
  have c2 : (f.den < 2 * (f.num - f.den * Int.fdiv f.num f.den)) ↔
      1 / 2 < Int.fract f.toQ := by
    rw [hfr]; exact (key2 _).symm
  unfold rheF rheQ
  by_cases h1 : Int.fract f.toQ < 1 / 2
  · rw [if_pos (c1.mpr h1), if_pos h1, hk]
  · rw [if_neg (fun hc => h1 (c1.mp hc)), if_neg h1]
    by_cases h2 : 1 / 2 < Int.fract f.toQ
    · rw [if_pos (c2.mpr h2), if_pos h2, hk]
    · rw [if_neg (fun hc => h2 (c2.mp hc)), if_neg h2, hk]

theorem rheQ_floor_le (q : ℚ) : ⌊q⌋ ≤ rheQ q := by
  unfold rheQ; split_ifs <;> omega

theorem rheQ_le_floor_add_one (q : ℚ) : rheQ q ≤ ⌊q⌋ + 1 := by
  unfold rheQ; split_ifs <;> omega

theorem rheQ_err (q : ℚ) : |(rheQ q : ℚ) - q| ≤ 1 / 2 := by
  have hf0 : 0 ≤ Int.fract q := Int.fract_nonneg q
  have hf1 : Int.fract q < 1 := Int.fract_lt_one q
  have hq : (⌊q⌋ : ℚ) = q - Int.fract q := by
    have := Int.self_sub_floor q
    linarith
  unfold rheQ
  split_ifs with h1 h2 h3 <;> rw [abs_le] <;> push_cast <;> constructor <;> linarith

theorem rheQ_mono {q q' : ℚ} (h : q ≤ q') : rheQ q ≤ rheQ q' := by
  have hf : ⌊q⌋ ≤ ⌊q'⌋ := Int.floor_le_floor h
  by_cases he : ⌊q⌋ = ⌊q'⌋
  · have hfr : Int.fract q ≤ Int.fract q' := by
      have h1 := Int.self_sub_floor q
      have h2 := Int.self_sub_floor q'
      have he' : ((⌊q⌋ : ℤ) : ℚ) = ((⌊q'⌋ : ℤ) : ℚ) := by exact_mod_cast he
      linarith
    unfold rheQ
    rw [he]
    split_ifs <;> first | omega | (exfalso; linarith)
  · have hlt : ⌊q⌋ < ⌊q'⌋ := lt_of_le_of_ne hf he
    calc rheQ q ≤ ⌊q⌋ + 1 := rheQ_le_floor_add_one q
      _ ≤ ⌊q'⌋ := by omega
      _ ≤ rheQ q' := rheQ_floor_le q'

theorem findExpPos_spec (f : Frac) (hn : 0 < f.num) (hd : 0 < f.den) :
    (2 : ℚ) ^ (findExpPos f) ≤ f.toQ ∧ f.toQ < 2 ^ (findExpPos f + 1) := by
  have hdq : (0 : ℚ) < (f.den : ℚ) := by exact_mod_cast hd
  have hnq : (0 : ℚ) < (f.num : ℚ) := by exact_mod_cast hn
  rw [findExpPos]
  split_ifs with hge hexact
  · -- f.den ≤ f.num : the value is at least 1
    have h1q : (1 : ℚ) ≤ f.toQ := by
      rw [Frac.toQ, le_div_iff₀ hdq, one_mul]
      exact_mod_cast hge
    have htd : Int.tdiv f.num f.den = ⌊f.toQ⌋ := by
      rw [Int.tdiv_eq_ediv hn.le hd.le, Frac.toQ, floor_cast_div _ _ hd]
    have hfl1 : 1 ≤ ⌊f.toQ⌋ := by
      rw [Int.le_floor]
      exact_mod_cast h1q
    have hmz : ((Int.toNat (Int.tdiv f.num f.den) : ℕ) : ℤ) = ⌊f.toQ⌋ := by
      rw [← htd]
      exact Int.toNat_of_nonneg (by rw [htd]; omega)
    have hm1 : 1 ≤ Int.toNat (Int.tdiv f.num f.den) := by omega
    obtain ⟨hlo, hhi⟩ := natLog2_spec _ hm1
    constructor
    · rw [zpow_natCast]
      calc ((2 : ℚ) ^ natLog2 (Int.toNat (Int.tdiv f.num f.den)) : ℚ)
          ≤ ((Int.toNat (Int.tdiv f.num f.den) : ℕ) : ℚ) := by exact_mod_cast hlo
        _ = ((⌊f.toQ⌋ : ℤ) : ℚ) := by exact_mod_cast hmz
        _ ≤ f.toQ := Int.floor_le _
    · rw [show ((natLog2 (Int.toNat (Int.tdiv f.num f.den)) : ℤ) + 1)
          = ((natLog2 (Int.toNat (Int.tdiv f.num f.den)) + 1 : ℕ) : ℤ) by push_cast; ring,
        zpow_natCast]
      calc f.toQ < ((⌊f.toQ⌋ : ℤ) : ℚ) + 1 := Int.lt_floor_add_one _
        _ = ((Int.toNat (Int.tdiv f.num f.den) : ℕ) : ℚ) + 1 := by
            rw [← hmz]; push_cast; ring
        _ ≤ (2 : ℚ) ^ (natLog2 (Int.toNat (Int.tdiv f.num f.den)) + 1) := by
            exact_mod_cast hhi
  · -- exact negative power of two: num * 2^j = den
    push_neg at hge
    have hnum0 : (f.num : ℚ) ≠ 0 := hnq.ne'
    have hdenq : (f.den : ℚ) = (f.num : ℚ) *
        2 ^ natLog2 (Int.toNat (Int.tdiv f.den f.num)) := by
      rw [pow2_eq] at hexact
      exact_mod_cast congrArg (fun z : ℤ => (z : ℚ)) hexact.symm
    have hq : f.toQ = ((2 : ℚ) ^ natLog2 (Int.toNat (Int.tdiv f.den f.num)))⁻¹ := by
      rw [Frac.toQ, hdenq, div_mul_eq_div_div, div_self hnum0, one_div]
    have hpos : (0 : ℚ) < ((2 : ℚ) ^ natLog2 (Int.toNat (Int.tdiv f.den f.num)))⁻¹ := by
      positivity
    constructor
    · rw [zpow_neg, zpow_natCast, hq]
    · rw [hq, show (-(natLog2 (Int.toNat (Int.tdiv f.den f.num)) : ℤ) + 1)
          = (1 + -(natLog2 (Int.toNat (Int.tdiv f.den f.num)) : ℤ)) by ring,
        zpow_add₀ (by norm_num : (2:ℚ) ≠ 0), zpow_one, zpow_neg, zpow_natCast]
      nlinarith [hpos]
  · -- strictly inside the binade
    push_neg at hge
    have hR1 : (1 : ℚ) < (f.den : ℚ) / (f.num : ℚ) := by
      rw [lt_div_iff₀ hnq, one_mul]
      exact_mod_cast hge
    have htd : Int.tdiv f.den f.num = ⌊(f.den : ℚ) / (f.num : ℚ)⌋ := by
      rw [Int.tdiv_eq_ediv hd.le hn.le, floor_cast_div _ _ hn]
    have hfl1 : 1 ≤ ⌊(f.den : ℚ) / (f.num : ℚ)⌋ := by
      rw [Int.le_floor]
      exact_mod_cast hR1.le
    have hdz : ((Int.toNat (Int.tdiv f.den f.num) : ℕ) : ℤ)
        = ⌊(f.den : ℚ) / (f.num : ℚ)⌋ := by
      rw [← htd]
      exact Int.toNat_of_nonneg (by rw [htd]; omega)
    have hd1 : 1 ≤ Int.toNat (Int.tdiv f.den f.num) := by omega
    obtain ⟨hlo, hhi⟩ := natLog2_spec _ hd1
    have hRlo : ((2 : ℚ) ^ natLog2 (Int.toNat (Int.tdiv f.den f.num)))
        ≤ (f.den : ℚ) / (f.num : ℚ) := by
      calc ((2 : ℚ) ^ natLog2 (Int.toNat (Int.tdiv f.den f.num)))
          ≤ ((Int.toNat (Int.tdiv f.den f.num) : ℕ) : ℚ) := by exact_mod_cast hlo
        _ = ((⌊(f.den : ℚ) / (f.num : ℚ)⌋ : ℤ) : ℚ) := by exact_mod_cast hdz
        _ ≤ (f.den : ℚ) / (f.num : ℚ) := Int.floor_le _
    have hRhi : (f.den : ℚ) / (f.num : ℚ)
        < 2 ^ (natLog2 (Int.toNat (Int.tdiv f.den f.num)) + 1) := by
      calc (f.den : ℚ) / (f.num : ℚ)
          < ((⌊(f.den : ℚ) / (f.num : ℚ)⌋ : ℤ) : ℚ) + 1 := Int.lt_floor_add_one _
        _ = ((Int.toNat (Int.tdiv f.den f.num) : ℕ) : ℚ) + 1 := by
            rw [← hdz]; push_cast; ring
        _ ≤ (2 : ℚ) ^ (natLog2 (Int.toNat (Int.tdiv f.den f.num)) + 1) := by
            exact_mod_cast hhi
    have hqhi : (f.num : ℚ) * 2 ^ natLog2 (Int.toNat (Int.tdiv f.den f.num))
        < (f.den : ℚ) := by
      rw [le_div_iff₀ hnq] at hRlo
      have hne : (f.num : ℚ) * 2 ^ natLog2 (Int.toNat (Int.tdiv f.den f.num))
          ≠ (f.den : ℚ) := by
        intro hc
        apply hexact
        rw [pow2_eq]
        exact_mod_cast hc
      have hle : (f.num : ℚ) * 2 ^ natLog2 (Int.toNat (Int.tdiv f.den f.num))
          ≤ (f.den : ℚ) := by linarith
      exact lt_of_le_of_ne hle hne
    have hqlo : (f.den : ℚ)
        < (f.num : ℚ) * 2 ^ (natLog2 (Int.toNat (Int.tdiv f.den f.num)) + 1) := by
      rw [div_lt_iff₀ hnq] at hRhi
      linarith
    constructor
    · rw [show (-(natLog2 (Int.toNat (Int.tdiv f.den f.num)) : ℤ) - 1)
          = -((natLog2 (Int.toNat (Int.tdiv f.den f.num)) + 1 : ℕ) : ℤ) by push_cast; ring,
        zpow_neg, zpow_natCast, Frac.toQ, inv_eq_one_div,
        div_le_div_iff₀ (by positivity) hdq, one_mul]
      linarith
    · rw [show (-(natLog2 (Int.toNat (Int.tdiv f.den f.num)) : ℤ) - 1 + 1)
          = -((natLog2 (Int.toNat (Int.tdiv f.den f.num)) : ℕ) : ℤ) by ring,
        zpow_neg, zpow_natCast, Frac.toQ, inv_eq_one_div,
        div_lt_div_iff₀ hdq (by positivity), one_mul]
      linarith

theorem flPos_master (f : Frac) (hn : 0 < f.num) (hd : 0 < f.den) :
    0 < (flPos f).den ∧ 0 < (flPos f).num ∧
    (flPos f).toQ =
      ((rheQ (f.toQ * 2 ^ ((52 : ℤ) - findExpPos f)) : ℤ) : ℚ) *
        2 ^ (findExpPos f - (52 : ℤ)) ∧
    (2 : ℤ) ^ (52 : ℕ) ≤ rheQ (f.toQ * 2 ^ ((52 : ℤ) - findExpPos f)) ∧
    rheQ (f.toQ * 2 ^ ((52 : ℤ) - findExpPos f)) ≤ 2 ^ (53 : ℕ) := by
  obtain ⟨hsl, hsu⟩ := findExpPos_spec f hn hd
  have h2 : (2 : ℚ) ≠ 0 := by norm_num
  have hppos : (0 : ℚ) < 2 ^ ((52 : ℤ) - findExpPos f) := by positivity
  have hx_lo : (2 : ℚ) ^ (52 : ℕ) ≤ f.toQ * 2 ^ ((52 : ℤ) - findExpPos f) := by
    have key : (2 : ℚ) ^ (findExpPos f) * 2 ^ ((52 : ℤ) - findExpPos f)
        = 2 ^ (52 : ℕ) := by
      rw [← zpow_add₀ h2, add_sub_cancel, show ((52 : ℤ)) = ((52 : ℕ) : ℤ) by norm_num,
        zpow_natCast]
    calc (2 : ℚ) ^ (52 : ℕ) = 2 ^ (findExpPos f) * 2 ^ ((52 : ℤ) - findExpPos f) :=
        key.symm
      _ ≤ f.toQ * 2 ^ ((52 : ℤ) - findExpPos f) := by
        exact mul_le_mul_of_nonneg_right hsl hppos.le
  have hx_hi : f.toQ * 2 ^ ((52 : ℤ) - findExpPos f) < (2 : ℚ) ^ (53 : ℕ) := by
    have key : (2 : ℚ) ^ (findExpPos f + 1) * 2 ^ ((52 : ℤ) - findExpPos f)
        = 2 ^ (53 : ℕ) := by
      rw [← zpow_add₀ h2, show (findExpPos f + 1 + ((52 : ℤ) - findExpPos f)) = ((53 : ℕ) : ℤ)
        by push_cast; ring, zpow_natCast]
    calc f.toQ * 2 ^ ((52 : ℤ) - findExpPos f)
        < 2 ^ (findExpPos f + 1) * 2 ^ ((52 : ℤ) - findExpPos f) := by
          exact mul_lt_mul_of_pos_right hsu hppos
      _ = 2 ^ (53 : ℕ) := key
  have hM_lo : (2 : ℤ) ^ (52 : ℕ) ≤ rheQ (f.toQ * 2 ^ ((52 : ℤ) - findExpPos f)) := by
    have hfl : (2 : ℤ) ^ (52 : ℕ) ≤ ⌊f.toQ * 2 ^ ((52 : ℤ) - findExpPos f)⌋ := by
      rw [Int.le_floor]
      push_cast
      exact hx_lo
    exact le_trans hfl (rheQ_floor_le _)
  have hM_hi : rheQ (f.toQ * 2 ^ ((52 : ℤ) - findExpPos f)) ≤ (2 : ℤ) ^ (53 : ℕ) := by
    have hfl : ⌊f.toQ * 2 ^ ((52 : ℤ) - findExpPos f)⌋ < (2 : ℤ) ^ (53 : ℕ) := by
      rw [Int.floor_lt]
      push_cast
      exact hx_hi
    have := rheQ_le_floor_add_one (f.toQ * 2 ^ ((52 : ℤ) - findExpPos f))
    omega
  refine ⟨?_, ?_, ?_, hM_lo, hM_hi⟩ <;> rw [flPos] <;> split_ifs with hle
  · exact pow2_pos _
  · norm_num
  · -- num in the low-exponent branch
    show 0 < rheF ⟨f.num * pow2 (52 - findExpPos f).toNat, f.den⟩
    have hsz : (((52 - findExpPos f).toNat : ℕ) : ℤ) = 52 - findExpPos f :=
      Int.toNat_of_nonneg (by omega)
    have hscaledQ : (Frac.mk (f.num * pow2 (52 - findExpPos f).toNat) f.den).toQ
        = f.toQ * 2 ^ ((52 : ℤ) - findExpPos f) := by
      rw [Frac.toQ, Frac.toQ]
      push_cast [pow2_eq]
      rw [← zpow_natCast (2 : ℚ) ((52 - findExpPos f).toNat), hsz, mul_div_right_comm]
    rw [show rheF ⟨f.num * pow2 (52 - findExpPos f).toNat, f.den⟩
        = rheQ (Frac.mk (f.num * pow2 (52 - findExpPos f).toNat) f.den).toQ from
        rheF_eq_rheQ _ hd, hscaledQ]
    have : (0 : ℤ) < 2 ^ (52 : ℕ) := by positivity
    omega
  · -- num in the high-exponent branch
    show 0 < rheF ⟨f.num, f.den * pow2 (findExpPos f - 52).toNat⟩ *
      pow2 (findExpPos f - 52).toNat
    have hsz : (((findExpPos f - 52).toNat : ℕ) : ℤ) = findExpPos f - 52 :=
      Int.toNat_of_nonneg (by omega)
    have hdpos : 0 < f.den * pow2 (findExpPos f - 52).toNat :=
      mul_pos hd (pow2_pos _)
    have hscaledQ : (Frac.mk f.num (f.den * pow2 (findExpPos f - 52).toNat)).toQ
        = f.toQ * 2 ^ ((52 : ℤ) - findExpPos f) := by
      rw [Frac.toQ, Frac.toQ]
      push_cast [pow2_eq]
      rw [div_mul_eq_div_div,
        div_eq_mul_inv ((f.num : ℚ) / (f.den : ℚ)),
        ← zpow_natCast (2 : ℚ) ((findExpPos f - 52).toNat), hsz, ← zpow_neg,
        show (-(findExpPos f - 52) : ℤ) = (52 : ℤ) - findExpPos f by ring]
    rw [show rheF ⟨f.num, f.den * pow2 (findExpPos f - 52).toNat⟩
        = rheQ (Frac.mk f.num (f.den * pow2 (findExpPos f - 52).toNat)).toQ from
        rheF_eq_rheQ _ hdpos, hscaledQ]
    have h52 : (0 : ℤ) < 2 ^ (52 : ℕ) := by positivity
    have := pow2_pos (findExpPos f - 52).toNat
    nlinarith
  · -- toQ in the low-exponent branch
    have hsz : (((52 - findExpPos f).toNat : ℕ) : ℤ) = 52 - findExpPos f :=
      Int.toNat_of_nonneg (by omega)
    have hscaledQ : (Frac.mk (f.num * pow2 (52 - findExpPos f).toNat) f.den).toQ
        = f.toQ * 2 ^ ((52 : ℤ) - findExpPos f) := by
      rw [Frac.toQ, Frac.toQ]
      push_cast [pow2_eq]
      rw [← zpow_natCast (2 : ℚ) ((52 - findExpPos f).toNat), hsz, mul_div_right_comm]
    rw [Frac.toQ]
    show ((rheF ⟨f.num * pow2 (52 - findExpPos f).toNat, f.den⟩ : ℤ) : ℚ) /
        ((pow2 (52 - findExpPos f).toNat : ℤ) : ℚ) = _
    rw [show rheF ⟨f.num * pow2 (52 - findExpPos f).toNat, f.den⟩
        = rheQ (Frac.mk (f.num * pow2 (52 - findExpPos f).toNat) f.den).toQ from
        rheF_eq_rheQ ⟨f.num * pow2 (52 - findExpPos f).toNat, f.den⟩ hd, hscaledQ]
    rw [show ((pow2 (52 - findExpPos f).toNat : ℤ) : ℚ)
        = 2 ^ ((52 : ℤ) - findExpPos f) by
      rw [pow2_eq]; push_cast; rw [← zpow_natCast (2 : ℚ), hsz]]
    rw [div_eq_mul_inv, ← zpow_neg,
      show (-((52 : ℤ) - findExpPos f)) = findExpPos f - 52 by ring]
  · -- toQ in the high-exponent branch
    have hsz : (((findExpPos f - 52).toNat : ℕ) : ℤ) = findExpPos f - 52 :=
      Int.toNat_of_nonneg (by omega)
    have hdpos : 0 < f.den * pow2 (findExpPos f - 52).toNat :=
      mul_pos hd (pow2_pos _)
    have hscaledQ : (Frac.mk f.num (f.den * pow2 (findExpPos f - 52).toNat)).toQ
        = f.toQ * 2 ^ ((52 : ℤ) - findExpPos f) := by
      rw [Frac.toQ, Frac.toQ]
      push_cast [pow2_eq]
      rw [div_mul_eq_div_div,
        div_eq_mul_inv ((f.num : ℚ) / (f.den : ℚ)),
        ← zpow_natCast (2 : ℚ) ((findExpPos f - 52).toNat), hsz, ← zpow_neg,
        show (-(findExpPos f - 52) : ℤ) = (52 : ℤ) - findExpPos f by ring]
    rw [Frac.toQ]
    show ((rheF ⟨f.num, f.den * pow2 (findExpPos f - 52).toNat⟩ *
        pow2 (findExpPos f - 52).toNat : ℤ) : ℚ) / ((1 : ℤ) : ℚ) = _
    rw [show rheF ⟨f.num, f.den * pow2 (findExpPos f - 52).toNat⟩
        = rheQ (Frac.mk f.num (f.den * pow2 (findExpPos f - 52).toNat)).toQ from
        rheF_eq_rheQ ⟨f.num, f.den * pow2 (findExpPos f - 52).toNat⟩ hdpos, hscaledQ]
    push_cast [pow2_eq]
    rw [← zpow_natCast (2 : ℚ) ((findExpPos f - 52).toNat), hsz]
    norm_num

theorem flPos_den_pos (f : Frac) (hn : 0 < f.num) (hd : 0 < f.den) :
    0 < (flPos f).den := (flPos_master f hn hd).1

theorem flPos_num_pos (f : Frac) (hn : 0 < f.num) (hd : 0 < f.den) :
    0 < (flPos f).num := (flPos_master f hn hd).2.1

theorem toQ_pos (f : Frac) (hn : 0 < f.num) (hd : 0 < f.den) : 0 < f.toQ := by
  rw [Frac.toQ]
  have h1 : (0 : ℚ) < (f.num : ℚ) := by exact_mod_cast hn
  have h2 : (0 : ℚ) < (f.den : ℚ) := by exact_mod_cast hd
  positivity

theorem num_pos_of_toQ_pos (f : Frac) (hd : 0 < f.den) (h : 0 < f.toQ) :
    0 < f.num := by
  by_contra hc
  push_neg at hc
  have h1 : (f.num : ℚ) ≤ 0 := by exact_mod_cast hc
  have h2 : (0 : ℚ) < (f.den : ℚ) := by exact_mod_cast hd
  have : f.toQ ≤ 0 := div_nonpos_of_nonpos_of_nonneg h1 h2.le
  linarith

theorem flPos_err (f : Frac) (hn : 0 < f.num) (hd : 0 < f.den) :
    |(flPos f).toQ - f.toQ| ≤ f.toQ / 2 ^ (53 : ℕ) := by
  obtain ⟨hsl, _⟩ := findExpPos_spec f hn hd
  obtain ⟨_, _, htoQ, _, _⟩ := flPos_master f hn hd
  have h2 : (2 : ℚ) ≠ 0 := by norm_num
  have hcancel : f.toQ * 2 ^ ((52 : ℤ) - findExpPos f) * 2 ^ (findExpPos f - (52 : ℤ))
      = f.toQ := by
    rw [mul_assoc, ← zpow_add₀ h2]
    norm_num
  have herr := rheQ_err (f.toQ * 2 ^ ((52 : ℤ) - findExpPos f))
  have hppos : (0 : ℚ) < 2 ^ (findExpPos f - (52 : ℤ)) := by positivity
  have hdiff : (flPos f).toQ - f.toQ =
      (((rheQ (f.toQ * 2 ^ ((52 : ℤ) - findExpPos f)) : ℤ) : ℚ) -
        f.toQ * 2 ^ ((52 : ℤ) - findExpPos f)) * 2 ^ (findExpPos f - (52 : ℤ)) := by
    rw [htoQ, sub_mul, hcancel]
  rw [hdiff, abs_mul, abs_of_pos hppos]
  have hstep : |((rheQ (f.toQ * 2 ^ ((52 : ℤ) - findExpPos f)) : ℤ) : ℚ) -
      f.toQ * 2 ^ ((52 : ℤ) - findExpPos f)| * 2 ^ (findExpPos f - (52 : ℤ))
      ≤ (1 / 2) * 2 ^ (findExpPos f - (52 : ℤ)) :=
    mul_le_mul_of_nonneg_right herr hppos.le
  refine le_trans hstep ?_
  have hscale : (1 / 2 : ℚ) * 2 ^ (findExpPos f - (52 : ℤ))
      = 2 ^ (findExpPos f) / 2 ^ (53 : ℕ) := by
    have e1 : (1 / 2 : ℚ) = 2 ^ (-(1 : ℤ)) := by
      rw [zpow_neg, zpow_one, one_div]
    have e2 : ((2 : ℚ) ^ (53 : ℕ)) = 2 ^ ((53 : ℤ)) := by
      rw [← zpow_natCast (2 : ℚ) 53]
      norm_num
    rw [e1, e2, ← zpow_add₀ h2, div_eq_mul_inv, ← zpow_neg, ← zpow_add₀ h2]
    congr 1
    ring
  rw [hscale, div_eq_mul_inv, div_eq_mul_inv]
  exact mul_le_mul_of_nonneg_right hsl (by positivity)

theorem flPos_binade_lb (f : Frac) (hn : 0 < f.num) (hd : 0 < f.den) :
    (2 : ℚ) ^ (findExpPos f) ≤ (flPos f).toQ := by
  obtain ⟨_, _, htoQ, hMlo, _⟩ := flPos_master f hn hd
  have h2 : (2 : ℚ) ≠ 0 := by norm_num
  have hppos : (0 : ℚ) < 2 ^ (findExpPos f - (52 : ℤ)) := by positivity
  have hMloq : ((2 : ℚ) ^ (52 : ℕ))
      ≤ ((rheQ (f.toQ * 2 ^ ((52 : ℤ) - findExpPos f)) : ℤ) : ℚ) := by
    exact_mod_cast hMlo
  have hkey : (2 : ℚ) ^ (52 : ℕ) * 2 ^ (findExpPos f - (52 : ℤ))
      = 2 ^ (findExpPos f) := by
    rw [← zpow_natCast (2 : ℚ) 52, ← zpow_add₀ h2]
    congr 1
    push_cast
    ring
  rw [htoQ, ← hkey]
  exact mul_le_mul_of_nonneg_right hMloq hppos.le

theorem flPos_binade_ub (f : Frac) (hn : 0 < f.num) (hd : 0 < f.den) :
    (flPos f).toQ ≤ (2 : ℚ) ^ (findExpPos f + 1) := by
  obtain ⟨_, _, htoQ, _, hMhi⟩ := flPos_master f hn hd
  have h2 : (2 : ℚ) ≠ 0 := by norm_num
  have hppos : (0 : ℚ) < 2 ^ (findExpPos f - (52 : ℤ)) := by positivity
  have hMhiq : ((rheQ (f.toQ * 2 ^ ((52 : ℤ) - findExpPos f)) : ℤ) : ℚ)
      ≤ ((2 : ℚ) ^ (53 : ℕ)) := by
    exact_mod_cast hMhi
  have hkey : (2 : ℚ) ^ (53 : ℕ) * 2 ^ (findExpPos f - (52 : ℤ))
      = 2 ^ (findExpPos f + 1) := by
    rw [← zpow_natCast (2 : ℚ) 53, ← zpow_add₀ h2]
    congr 1
    push_cast
    ring
  rw [htoQ, ← hkey]
  exact mul_le_mul_of_nonneg_right hMhiq hppos.le

theorem flPos_mono (a b : Frac) (hna : 0 < a.num) (hda : 0 < a.den)
    (hnb : 0 < b.num) (hdb : 0 < b.den) (h : a.toQ ≤ b.toQ) :
    (flPos a).toQ ≤ (flPos b).toQ := by
  have hEab : findExpPos a ≤ findExpPos b := by
    by_contra hc
    push_neg at hc
    have h1 : (2 : ℚ) ^ (findExpPos b + 1) ≤ 2 ^ (findExpPos a) :=
      zpow_le_zpow_right₀ (by norm_num : (1 : ℚ) ≤ 2) (by omega)
    have h2 := (findExpPos_spec a hna hda).1
    have h3 := (findExpPos_spec b hnb hdb).2
    linarith
  rcases eq_or_lt_of_le hEab with heq | hlt
  · obtain ⟨_, _, htoQa, _, _⟩ := flPos_master a hna hda
    obtain ⟨_, _, htoQb, _, _⟩ := flPos_master b hnb hdb
    rw [htoQa, htoQb, ← heq]
    have hppos : (0 : ℚ) ≤ 2 ^ (findExpPos a - (52 : ℤ)) := by positivity
    refine mul_le_mul_of_nonneg_right ?_ hppos
    have hrm : rheQ (a.toQ * 2 ^ ((52 : ℤ) - findExpPos a))
        ≤ rheQ (b.toQ * 2 ^ ((52 : ℤ) - findExpPos a)) := by
      apply rheQ_mono
      exact mul_le_mul_of_nonneg_right h (by positivity)
    exact_mod_cast hrm
  · calc (flPos a).toQ ≤ 2 ^ (findExpPos a + 1) := flPos_binade_ub a hna hda
      _ ≤ 2 ^ (findExpPos b) :=
        zpow_le_zpow_right₀ (by norm_num : (1 : ℚ) ≤ 2) (by omega)
      _ ≤ (flPos b).toQ := flPos_binade_lb b hnb hdb

theorem signNorm_id (f : Frac) (hd : 0 < f.den) : f.signNorm = f := by
  rw [Frac.signNorm, if_neg (by omega)]

theorem rd_eq_zero (f : Frac) (hd : 0 < f.den) (h0 : f.num = 0) :
    roundDouble f = ⟨0, 1⟩ := by
  rw [roundDouble, signNorm_id f hd, if_pos h0]

theorem rd_eq_flPos (f : Frac) (hd : 0 < f.den) (h0 : 0 < f.num) :
    roundDouble f = flPos f := by
  rw [roundDouble, signNorm_id f hd, if_neg (by omega), if_pos h0]

theorem toQ_zero_of_num_zero (f : Frac) (h0 : f.num = 0) : f.toQ = 0 := by
  rw [Frac.toQ, h0]
  norm_num

theorem rd_den_pos (f : Frac) (hd : 0 < f.den) (hn : 0 ≤ f.num) :
    0 < (roundDouble f).den := by
  rcases eq_or_lt_of_le hn with h0 | h0
  · rw [rd_eq_zero f hd h0.symm]
    norm_num
  · rw [rd_eq_flPos f hd h0]
    exact flPos_den_pos f h0 hd

theorem rd_num_nonneg (f : Frac) (hd : 0 < f.den) (hn : 0 ≤ f.num) :
    0 ≤ (roundDouble f).num := by
  rcases eq_or_lt_of_le hn with h0 | h0
  · rw [rd_eq_zero f hd h0.symm]
  · rw [rd_eq_flPos f hd h0]
    exact (flPos_num_pos f h0 hd).le

theorem rd_toQ_nonneg (f : Frac) (hd : 0 < f.den) (hn : 0 ≤ f.num) :
    0 ≤ (roundDouble f).toQ := by
  rw [Frac.toQ]
  have h1 : (0 : ℚ) ≤ ((roundDouble f).num : ℚ) := by
    exact_mod_cast rd_num_nonneg f hd hn
  have h2 : (0 : ℚ) ≤ ((roundDouble f).den : ℚ) := by
    exact_mod_cast (rd_den_pos f hd hn).le
  positivity

theorem rd_err (f : Frac) (hd : 0 < f.den) (hn : 0 ≤ f.num) :
    |(roundDouble f).toQ - f.toQ| ≤ f.toQ / 2 ^ (53 : ℕ) := by
  rcases eq_or_lt_of_le hn with h0 | h0
  · rw [rd_eq_zero f hd h0.symm, toQ_zero_of_num_zero f h0.symm,
      toQ_zero_of_num_zero ⟨0, 1⟩ rfl]
    norm_num
  · rw [rd_eq_flPos f hd h0]
    exact flPos_err f h0 hd

theorem rd_mono (a b : Frac) (hda : 0 < a.den) (hna : 0 ≤ a.num)
    (hdb : 0 < b.den) (hnb : 0 ≤ b.num) (h : a.toQ ≤ b.toQ) :
    (roundDouble a).toQ ≤ (roundDouble b).toQ := by
  rcases eq_or_lt_of_le hna with h0 | h0
  · rw [rd_eq_zero a hda h0.symm, toQ_zero_of_num_zero ⟨0, 1⟩ rfl]
    exact rd_toQ_nonneg b hdb hnb
  · have hta : 0 < a.toQ := toQ_pos a h0 hda
    have htb : 0 < b.toQ := lt_of_lt_of_le hta h
    have hb0 : 0 < b.num := num_pos_of_toQ_pos b hdb htb
    rw [rd_eq_flPos a hda h0, rd_eq_flPos b hdb hb0]
    exact flPos_mono a b h0 hda hb0 hdb h

theorem pyInt_eq_floor (f : Frac) (hd : 0 < f.den) (hn : 0 ≤ f.num) :
    pyInt f = ⌊f.toQ⌋ := by
  rw [pyInt, signNorm_id f hd, Int.tdiv_eq_ediv hn hd.le, Frac.toQ,
    floor_cast_div _ _ hd]

theorem div_eval (i n : Nat) : Frac.div (Frac.ofNat i) (Frac.ofNat n)
    = ⟨(i : ℤ), (n : ℤ)⟩ := by
  rw [Frac.div, Frac.ofNat, Frac.ofNat]
  show Frac.signNorm ⟨(i : ℤ) * 1, 1 * (n : ℤ)⟩ = _
  rw [Frac.signNorm]
  simp only [mul_one, one_mul]
  rw [if_neg (by omega : ¬ ((n : ℤ) < 0))]

theorem mul75_eval (x : Frac) (hd : 0 < x.den) :
    Frac.mul x (Frac.ofNat 75) = ⟨x.num * 75, x.den⟩ := by
  rw [Frac.mul, Frac.ofNat]
  show Frac.signNorm ⟨x.num * 75, x.den * 1⟩ = _
  rw [Frac.signNorm]
  simp only [mul_one]
  rw [if_neg (by omega : ¬ (x.den < 0))]

theorem toQ_natFrac (i n : Nat) : (Frac.mk (i : ℤ) (n : ℤ)).toQ
    = (i : ℚ) / (n : ℚ) := by
  rw [Frac.toQ]
  push_cast
  ring

theorem toQ_mul75 (x : Frac) : (Frac.mk (x.num * 75) x.den).toQ
    = x.toQ * 75 := by
  rw [Frac.toQ, Frac.toQ]
  push_cast
  rw [mul_div_right_comm]

theorem rdOne_eval : roundDouble ⟨1, 1⟩ = ⟨pow2 52, pow2 52⟩ := by decide

theorem rdOne_toQ : (roundDouble ⟨1, 1⟩).toQ = 1 := by
  rw [rdOne_eval, Frac.toQ]
  show ((pow2 52 : ℤ) : ℚ) / ((pow2 52 : ℤ) : ℚ) = 1
  rw [div_self]
  have := pow2_pos 52
  exact_mod_cast this.ne'

theorem rd75_eval : roundDouble ⟨75, 1⟩ = ⟨75 * pow2 46, pow2 46⟩ := by decide

theorem rd75_toQ : (roundDouble ⟨75, 1⟩).toQ = 75 := by
  rw [rd75_eval, Frac.toQ]
  show ((75 * pow2 46 : ℤ) : ℚ) / ((pow2 46 : ℤ) : ℚ) = 75
  have hp : ((pow2 46 : ℤ) : ℚ) ≠ 0 := by
    have := pow2_pos 46
    exact_mod_cast this.ne'
  push_cast
  field_simp

theorem mkNat_den_pos (i n : Nat) (hn : 0 < n) :
    0 < (Frac.mk (i : ℤ) (n : ℤ)).den := by
  show (0 : ℤ) < (n : ℤ)
  exact_mod_cast hn

theorem mkNat_num_nonneg (i n : Nat) : 0 ≤ (Frac.mk (i : ℤ) (n : ℤ)).num := by
  show (0 : ℤ) ≤ (i : ℤ)
  exact_mod_cast Nat.zero_le i

theorem ddiv_den_pos (i n : Nat) (hn : 0 < n) :
    0 < (doubleDiv (Frac.ofNat i) (Frac.ofNat n)).den := by
  rw [doubleDiv, div_eval]
  exact rd_den_pos _ (mkNat_den_pos i n hn) (mkNat_num_nonneg i n)

theorem ddiv_num_nonneg (i n : Nat) (hn : 0 < n) :
    0 ≤ (doubleDiv (Frac.ofNat i) (Frac.ofNat n)).num := by
  rw [doubleDiv, div_eval]
  exact rd_num_nonneg _ (mkNat_den_pos i n hn) (mkNat_num_nonneg i n)

theorem ddiv_toQ_nonneg (i n : Nat) (hn : 0 < n) :
    0 ≤ (doubleDiv (Frac.ofNat i) (Frac.ofNat n)).toQ := by
  rw [doubleDiv, div_eval]
  exact rd_toQ_nonneg _ (mkNat_den_pos i n hn) (mkNat_num_nonneg i n)

theorem ddiv_err (i n : Nat) (hn : 0 < n) :
    |(doubleDiv (Frac.ofNat i) (Frac.ofNat n)).toQ - (i : ℚ) / (n : ℚ)|
      ≤ ((i : ℚ) / (n : ℚ)) / 2 ^ (53 : ℕ) := by
  rw [doubleDiv, div_eval, ← toQ_natFrac]
  exact rd_err _ (mkNat_den_pos i n hn) (mkNat_num_nonneg i n)

theorem ddiv_mono (i j n : Nat) (hn : 0 < n) (hij : i ≤ j) :
    (doubleDiv (Frac.ofNat i) (Frac.ofNat n)).toQ
      ≤ (doubleDiv (Frac.ofNat j) (Frac.ofNat n)).toQ := by
  rw [doubleDiv, doubleDiv, div_eval, div_eval]
  apply rd_mono _ _ (mkNat_den_pos i n hn) (mkNat_num_nonneg i n)
    (mkNat_den_pos j n hn) (mkNat_num_nonneg j n)
  rw [toQ_natFrac, toQ_natFrac]
  have hnq : (0 : ℚ) < (n : ℚ) := by exact_mod_cast hn
  rw [div_le_div_iff₀ hnq hnq]
  have : (i : ℚ) ≤ (j : ℚ) := by exact_mod_cast hij
  nlinarith

theorem ddiv_le_one (i n : Nat) (hn : 0 < n) (hi : i ≤ n) :
    (doubleDiv (Frac.ofNat i) (Frac.ofNat n)).toQ ≤ 1 := by
  have h1 : (doubleDiv (Frac.ofNat i) (Frac.ofNat n)).toQ
      ≤ (roundDouble ⟨1, 1⟩).toQ := by
    rw [doubleDiv, div_eval]
    apply rd_mono _ _ (mkNat_den_pos i n hn) (mkNat_num_nonneg i n)
      (by norm_num) (by norm_num)
    rw [toQ_natFrac]
    have hnq : (0 : ℚ) < (n : ℚ) := by exact_mod_cast hn
    have h2 : (Frac.mk (1 : ℤ) (1 : ℤ)).toQ = 1 := by rw [Frac.toQ]; norm_num
    rw [h2, div_le_one₀ hnq]
    exact_mod_cast hi
  rw [rdOne_toQ] at h1
  exact h1

theorem dmul75_den_pos (i n : Nat) (hn : 0 < n) :
    0 < (doubleMul (doubleDiv (Frac.ofNat i) (Frac.ofNat n)) (Frac.ofNat 75)).den := by
  rw [doubleMul, mul75_eval _ (ddiv_den_pos i n hn)]
  exact rd_den_pos _ (ddiv_den_pos i n hn)
    (mul_nonneg (ddiv_num_nonneg i n hn) (by norm_num))

theorem dmul75_num_nonneg (i n : Nat) (hn : 0 < n) :
    0 ≤ (doubleMul (doubleDiv (Frac.ofNat i) (Frac.ofNat n)) (Frac.ofNat 75)).num := by
  rw [doubleMul, mul75_eval _ (ddiv_den_pos i n hn)]
  exact rd_num_nonneg _ (ddiv_den_pos i n hn)
    (mul_nonneg (ddiv_num_nonneg i n hn) (by norm_num))

theorem dmul75_toQ_nonneg (i n : Nat) (hn : 0 < n) :
    0 ≤ (doubleMul (doubleDiv (Frac.ofNat i) (Frac.ofNat n)) (Frac.ofNat 75)).toQ := by
  rw [doubleMul, mul75_eval _ (ddiv_den_pos i n hn)]
  exact rd_toQ_nonneg _ (ddiv_den_pos i n hn)
    (mul_nonneg (ddiv_num_nonneg i n hn) (by norm_num))

theorem dmul75_err (i n : Nat) (hn : 0 < n) :
    |(doubleMul (doubleDiv (Frac.ofNat i) (Frac.ofNat n)) (Frac.ofNat 75)).toQ
        - (doubleDiv (Frac.ofNat i) (Frac.ofNat n)).toQ * 75|
      ≤ ((doubleDiv (Frac.ofNat i) (Frac.ofNat n)).toQ * 75) / 2 ^ (53 : ℕ) := by
  rw [doubleMul, mul75_eval _ (ddiv_den_pos i n hn), ← toQ_mul75]
  exact rd_err _ (ddiv_den_pos i n hn)
    (mul_nonneg (ddiv_num_nonneg i n hn) (by norm_num))

theorem dmul75_le_75 (i n : Nat) (hn : 0 < n) (hi : i ≤ n) :
    (doubleMul (doubleDiv (Frac.ofNat i) (Frac.ofNat n)) (Frac.ofNat 75)).toQ
      ≤ 75 := by
  have h1 : (doubleMul (doubleDiv (Frac.ofNat i) (Frac.ofNat n)) (Frac.ofNat 75)).toQ
      ≤ (roundDouble ⟨75, 1⟩).toQ := by
    rw [doubleMul, mul75_eval _ (ddiv_den_pos i n hn)]
    refine rd_mono _ _ ?_ ?_ ?_ ?_ ?_
    · exact ddiv_den_pos i n hn
    · exact mul_nonneg (ddiv_num_nonneg i n hn) (by norm_num)
    · norm_num
    · norm_num
    · rw [toQ_mul75]
      have h2 : (Frac.mk (75 : ℤ) (1 : ℤ)).toQ = 75 := by rw [Frac.toQ]; norm_num
      rw [h2]
      nlinarith [ddiv_le_one i n hn hi]
  rw [rd75_toQ] at h1
  exact h1

theorem dmul75_mono (i j n : Nat) (hn : 0 < n) (hij : i ≤ j) :
    (doubleMul (doubleDiv (Frac.ofNat i) (Frac.ofNat n)) (Frac.ofNat 75)).toQ
      ≤ (doubleMul (doubleDiv (Frac.ofNat j) (Frac.ofNat n)) (Frac.ofNat 75)).toQ := by
  rw [doubleMul, doubleMul, mul75_eval _ (ddiv_den_pos i n hn),
    mul75_eval _ (ddiv_den_pos j n hn)]
  refine rd_mono _ _ ?_ ?_ ?_ ?_ ?_
  · exact ddiv_den_pos i n hn
  · exact mul_nonneg (ddiv_num_nonneg i n hn) (by norm_num)
  · exact ddiv_den_pos j n hn
  · exact mul_nonneg (ddiv_num_nonneg j n hn) (by norm_num)
  · rw [toQ_mul75, toQ_mul75]
    nlinarith [ddiv_mono i j n hn hij]

theorem slideProgress_floor (i n : Nat) (hn : 0 < n) :
    slideProgress i n = 20 +
      ⌊(doubleMul (doubleDiv (Frac.ofNat i) (Frac.ofNat n)) (Frac.ofNat 75)).toQ⌋ := by
  rw [slideProgress, pyInt_eq_floor _ (dmul75_den_pos i n hn) (dmul75_num_nonneg i n hn)]

theorem slideProgress_lb (n i : Nat) (hn : 0 < n) : 20 ≤ slideProgress i n := by
  rw [slideProgress_floor i n hn]
  have := Int.floor_nonneg.mpr (dmul75_toQ_nonneg i n hn)
  omega

theorem slideProgress_ub (n i : Nat) (hn : 0 < n) (hi : i < n) :
    slideProgress i n ≤ 95 := by
  rw [slideProgress_floor i n hn]
  have h1 := dmul75_le_75 i n hn hi.le
  have h2 : ⌊(doubleMul (doubleDiv (Frac.ofNat i) (Frac.ofNat n)) (Frac.ofNat 75)).toQ⌋
      ≤ ⌊(75 : ℚ)⌋ := Int.floor_le_floor h1
  have h3 : ⌊(75 : ℚ)⌋ = 75 := by norm_num
  omega

theorem slideProgress_mono (n i j : Nat) (hn : 0 < n) (hij : i ≤ j) :
    slideProgress i n ≤ slideProgress j n := by
  rw [slideProgress_floor i n hn, slideProgress_floor j n hn]
  have := Int.floor_le_floor (dmul75_mono i j n hn hij)
  omega

theorem slideProgress_sandwich (n i : Nat) (hn : 0 < n) (hi : i < n) :
    20 + (Nat.cast ((75 * i) / n) : Int) - 1 ≤ slideProgress i n ∧
    slideProgress i n ≤ 20 + (Nat.cast ((75 * i) / n) : Int) + 1 := by
  have hnq : (0 : ℚ) < (n : ℚ) := by exact_mod_cast hn
  have hq0_nonneg : (0 : ℚ) ≤ (i : ℚ) / (n : ℚ) := by positivity
  have hq0_le_one : (i : ℚ) / (n : ℚ) ≤ 1 := by
    rw [div_le_one₀ hnq]
    exact_mod_cast hi.le
  have hp53 : ((2 : ℚ) ^ (53 : ℕ)) = 9007199254740992 := by norm_num
  have hx_err := ddiv_err i n hn
  have hx_le_one := ddiv_le_one i n hn hi.le
  have hx_nonneg := ddiv_toQ_nonneg i n hn
  have hy_err := dmul75_err i n hn
  rw [hp53] at hx_err hy_err
  have hE : (75 : ℚ) * ((i : ℚ) / (n : ℚ)) = ((75 * i : ℕ) : ℚ) / ((n : ℕ) : ℚ) := by
    push_cast
    ring
  have hfloorE : ⌊((75 * i : ℕ) : ℚ) / ((n : ℕ) : ℚ)⌋ = ((75 * i) / n : ℕ) :=
    Rat.floor_natCast_div_natCast (75 * i) n
  have habs1 := abs_le.mp hx_err
  have habs2 := abs_le.mp hy_err
  set X := (doubleDiv (Frac.ofNat i) (Frac.ofNat n)).toQ with hX
  set Y := (doubleMul (doubleDiv (Frac.ofNat i) (Frac.ofNat n)) (Frac.ofNat 75)).toQ
    with hY
  have hyup : Y ≤ 75 * ((i : ℚ) / (n : ℚ)) + 1 / 2 := by
    have hc : (150 : ℚ) / 9007199254740992 ≤ 1 / 2 := by norm_num
    have b1 := habs1.1
    have b2 := habs1.2
    have b3 := habs2.1
    have b4 := habs2.2
    linarith
  have hylow : 75 * ((i : ℚ) / (n : ℚ)) - 1 / 2 ≤ Y := by
    have hc : (150 : ℚ) / 9007199254740992 ≤ 1 / 2 := by norm_num
    have b1 := habs1.1
    have b2 := habs1.2
    have b3 := habs2.1
    have b4 := habs2.2
    linarith
  rw [hE] at hyup hylow
  have hFle := Int.floor_le (((75 * i : ℕ) : ℚ) / ((n : ℕ) : ℚ))
  have hFlt := Int.lt_floor_add_one (((75 * i : ℕ) : ℚ) / ((n : ℕ) : ℚ))
  have hup : ⌊Y⌋ < ⌊((75 * i : ℕ) : ℚ) / ((n : ℕ) : ℚ)⌋ + 2 := by
    rw [Int.floor_lt]
    have hc2 : ((⌊((75 * i : ℕ) : ℚ) / ((n : ℕ) : ℚ)⌋ + 2 : ℤ) : ℚ)
        = ((⌊((75 * i : ℕ) : ℚ) / ((n : ℕ) : ℚ)⌋ : ℤ) : ℚ) + 2 := by
      push_cast
      ring
    rw [hc2]
    linarith
  have hlow : ⌊((75 * i : ℕ) : ℚ) / ((n : ℕ) : ℚ)⌋ - 1 ≤ ⌊Y⌋ := by
    rw [Int.le_floor]
    have hc1 : ((⌊((75 * i : ℕ) : ℚ) / ((n : ℕ) : ℚ)⌋ - 1 : ℤ) : ℚ)
        = ((⌊((75 * i : ℕ) : ℚ) / ((n : ℕ) : ℚ)⌋ : ℤ) : ℚ) - 1 := by
      push_cast
      ring
    rw [hc1]
    linarith
  rw [slideProgress_floor i n hn, ← hY]
  rw [hfloorE] at hup hlow
  omega

theorem slideStep_frozen (n : Nat) (f : Option (Nat × List Char)) (evs : List ProcEvent) (e : List Char) :
    ∀ l : List Nat, l.foldl (slideStep n f) (evs, some e) = (evs, some e) := by
  intro l
  induction l with
  | nil => rfl
  | cons i t ih => simpa [slideStep] using ih

theorem slideStep_fst (n : Nat) (f : Option (Nat × List Char)) (evs : List ProcEvent) (i : Nat) :
    (slideStep n f (evs, none) i).1 = evs ++ [statusEv .processing (slideProgress i n) none] := by
  unfold slideStep
  rcases f with _ | ⟨j, m⟩
  · rfl
  · dsimp only
    split <;> rfl

theorem slideLoop_prefix (n : Nat) (f : Option (Nat × List Char)) :
    ∀ (l : List Nat) (evs : List ProcEvent),
      ∃ l', (l.foldl (slideStep n f) (evs, none)).1 =
          evs ++ l'.map (fun i => statusEv .processing (slideProgress i n) none) ∧
        l' <+: l := by
  intro l
  induction l with
  | nil => intro evs; exact ⟨[], by simp, List.nil_prefix⟩
  | cons i t ih =>
    intro evs
    rcases hstep : slideStep n f (evs, none) i with ⟨evs2, r⟩
    have hevs2 : evs2 = evs ++ [statusEv .processing (slideProgress i n) none] := by
      have h := slideStep_fst n f evs i
      rw [hstep] at h
      exact h
    cases r with
    | none =>
      obtain ⟨l', hl', hp⟩ := ih evs2
      refine ⟨i :: l', ?_, ?_⟩
      · rw [List.foldl_cons, hstep, hl', hevs2]
        simp
      · obtain ⟨tl, htl⟩ := hp
        exact ⟨tl, by rw [← htl]; rfl⟩
    | some e =>
      refine ⟨[i], ?_, ⟨t, rfl⟩⟩
      rw [List.foldl_cons, hstep, slideStep_frozen, hevs2]
      simp

theorem slideLoop_events (n : Nat) (f : Option (Nat × List Char)) :
    ∃ l', (slideLoop n f).1 =
        l'.map (fun i => statusEv .processing (slideProgress i n) none) ∧
      l' <+: List.range n := by
  obtain ⟨l', h, hp⟩ := slideLoop_prefix n f (List.range n) []
  exact ⟨l', by simpa [slideLoop] using h, hp⟩

theorem svgGenerationOutcome_ok (files n : Nat) (svgs : List Nat)
    (h : svgGenerationOutcome files n = .ok svgs) :
    files = n ∧ n ≠ 0 ∧ svgs.length = n := by
  unfold svgGenerationOutcome at h
  by_cases h0 : files = 0
  · rw [if_pos h0] at h
    exact absurd h (by simp)
  · rw [if_neg h0] at h
    by_cases h1 : files = 1 ∧ n > 1
    · rw [if_pos h1] at h
      exact absurd h (by simp)
    · rw [if_neg h1] at h
      by_cases h2 : files = n
      · rw [if_pos h2] at h
        rw [Except.ok.injEq] at h
        subst h
        exact ⟨h2, by omega, by simp⟩
      · rw [if_neg h2] at h
        exact absurd h (by simp)

theorem statusUpdates_append (a b : List ProcEvent) :
    statusUpdates (a ++ b) = statusUpdates a ++ statusUpdates b :=
  List.filterMap_append a b _

theorem statusUpdates_map_statusEv (g : Nat → StatusUpdate) (l : List Nat) :
    statusUpdates (l.map (fun i => ProcEvent.statusUpdate (g i))) = l.map g := by
  induction l with
  | nil => rfl
  | cons i t ih =>
    simp only [List.map_cons, statusUpdates, List.filterMap_cons] at ih ⊢
    rw [ih]

theorem statusUpdates_last_fail (pre : List ProcEvent) (e : List Char) :
    ((statusUpdates (pre ++ failEvents e)).getLast?.map StatusUpdate.status) =
      some PStatus.failed := by
  have h : statusUpdates (pre ++ failEvents e) =
      statusUpdates pre ++ [⟨.failed, 0, some e⟩] := by
    rw [statusUpdates_append]; rfl
  rw [h, List.getLast?_concat]
  rfl

theorem statusUpdates_cons_status (u : StatusUpdate) (l : List ProcEvent) :
    statusUpdates (ProcEvent.statusUpdate u :: l) = u :: statusUpdates l := by
  simp [statusUpdates]

theorem statusUpdates_cons_cache (k : List Char) (l : List ProcEvent) :
    statusUpdates (ProcEvent.cacheStore k :: l) = statusUpdates l := by
  simp [statusUpdates]

theorem progress_success_chain (n : Nat) (hn : 0 < n) (l' : List Nat)
    (hp : l' <+: List.range n) (cacheEvs : List ProcEvent)
    (hc : statusUpdates cacheEvs = []) :
    List.Chain' (· ≤ ·)
      ((statusUpdates (statusEv .queued 0 none :: statusEv .processing 1 none ::
        statusEv .processing 5 none :: statusEv .processing 10 none ::
        ((l'.map (fun i => statusEv .processing (slideProgress i n) none)) ++
          (cacheEvs ++ [statusEv .completed 100 none])))).map StatusUpdate.progress) ∧
    ((statusUpdates (statusEv .queued 0 none :: statusEv .processing 1 none ::
        statusEv .processing 5 none :: statusEv .processing 10 none ::
        ((l'.map (fun i => statusEv .processing (slideProgress i n) none)) ++
          (cacheEvs ++ [statusEv .completed 100 none])))).map
        StatusUpdate.progress).getLast? = some 100 := by
  have hsu : statusUpdates (statusEv .queued 0 none :: statusEv .processing 1 none ::
      statusEv .processing 5 none :: statusEv .processing 10 none ::
      ((l'.map (fun i => statusEv .processing (slideProgress i n) none)) ++
        (cacheEvs ++ [statusEv .completed 100 none]))) =
      ⟨.queued, 0, none⟩ :: ⟨.processing, 1, none⟩ :: ⟨.processing, 5, none⟩ ::
        ⟨.processing, 10, none⟩ ::
        (l'.map (fun i => (⟨.processing, slideProgress i n, none⟩ : StatusUpdate)) ++
          [⟨.completed, 100, none⟩]) := by
    simp only [statusEv, statusUpdates_cons_status, statusUpdates_append,
      statusUpdates_map_statusEv, hc]
    simp [statusUpdates]
  rw [hsu]
  have hpv : (⟨.queued, 0, none⟩ :: ⟨.processing, 1, none⟩ :: ⟨.processing, 5, none⟩ ::
      (⟨.processing, 10, none⟩ : StatusUpdate) ::
      (l'.map (fun i => (⟨.processing, slideProgress i n, none⟩ : StatusUpdate)) ++
        [⟨.completed, 100, none⟩])).map StatusUpdate.progress =
      0 :: 1 :: 5 :: 10 :: (l'.map (fun i => slideProgress i n) ++ [100]) := by
    simp [List.map_append, List.map_map, Function.comp]
  rw [hpv]
  have hmem : ∀ x ∈ l'.map (fun i => slideProgress i n), 20 ≤ x ∧ x ≤ 95 := by
    intro x hx
    obtain ⟨i, hi, rfl⟩ := List.mem_map.mp hx
    have hin : i < n := List.mem_range.mp (hp.subset hi)
    exact ⟨slideProgress_lb n i hn, slideProgress_ub n i hn hin⟩
  have hMpair : List.Pairwise (· ≤ ·) (l'.map (fun i => slideProgress i n)) := by
    refine List.Pairwise.sublist ((hp.map _).sublist) ?_
    rw [List.pairwise_map]
    exact (List.pairwise_lt_range n).imp
      (fun hab => slideProgress_mono n _ _ hn (Nat.le_of_lt hab))
  constructor
  · rw [List.chain'_iff_pairwise]
    show List.Pairwise (· ≤ ·)
      (([0, 1, 5, 10] : List Int) ++ (l'.map (fun i => slideProgress i n) ++ [100]))
    rw [List.pairwise_append]
    refine ⟨by norm_num [List.pairwise_cons], ?_, ?_⟩
    · rw [List.pairwise_append]
      refine ⟨hMpair, List.pairwise_singleton _ _, ?_⟩
      intro a ha b hb
      rw [List.mem_singleton] at hb
      subst hb
      have := (hmem a ha).2
      linarith
    · intro a ha b hb
      have ha' : a ≤ 10 := by fin_cases ha <;> norm_num
      rcases List.mem_append.mp hb with hbm | hbs
      · have := (hmem b hbm).1
        linarith
      · rw [List.mem_singleton] at hbs
        subst hbs
        linarith
  · rw [← List.cons_append, ← List.cons_append, ← List.cons_append,
      ← List.cons_append]
    exact List.getLast?_concat _


/-- C4 (counterexample): the claimed per-slide formula
`progress = 20 + floor(75 * i / slide_count)` describes the float expression
`20 + int((idx / slide_count) * 75)` only up to rounding.  At slide index 11
of a 15-slide document the doubles give `(11/15)*75 = 54.99999999999999…`, so
the code writes progress 74 where the claimed formula gives
`20 + floor(75*11/15) = 75`. -/
theorem C4_claimed_formula_counterexample :
    slideProgress 11 15 = 74 ∧
    20 + (Nat.cast ((75 * 11) / 15) : Int) = 75 ∧
    slideProgress 11 15 ≠ 20 + (Nat.cast ((75 * 11) / 15) : Int) := by
  refine ⟨by decide, by decide, by decide⟩

/-- C4 (amended): the per-slide progress written to JobStatus for the 0-based
slide index `i` of a document with `slideCount` slides is
`20 + int((idx / slide_count) * 75)` computed in IEEE-754 binary64
arithmetic, which is within 1 of the claimed `20 + floor(75 * i / slideCount)`
but not always equal to it (first divergence at `i = 11`, `slideCount = 15`,
where the code writes 74 instead of 75); the per-slide loop emits exactly
these updates in index order (a prefix of the full index range, cut short
only by a per-slide raise); and for every completing run, the progress
values recorded from submission through completion are non-decreasing and
end at exactly 100. -/
theorem C4_progress (env : ProcEnv) :
    (∀ i, 0 < env.slideCount → i < env.slideCount →
      20 + (Nat.cast ((75 * i) / env.slideCount) : Int) - 1 ≤
          slideProgress i env.slideCount ∧
        slideProgress i env.slideCount ≤
          20 + (Nat.cast ((75 * i) / env.slideCount) : Int) + 1) ∧
    (∀ failAt, ∃ l', (slideLoop env.slideCount failAt).1 =
        l'.map (fun i => statusEv .processing (slideProgress i env.slideCount) none) ∧
      l' <+: List.range env.slideCount) ∧
    (jobCompletes env →
      List.Chain' (· ≤ ·) (progressValues env) ∧
      (progressValues env).getLast? = some 100) := by
  refine ⟨fun i hn hi => slideProgress_sandwich _ i hn hi,
    fun f => slideLoop_events _ f, fun hcomp => ?_⟩
  by_cases hcache : env.cacheKey.isSome = true ∧ env.cacheHit = true
  · obtain ⟨hsome, hhit⟩ := hcache
    obtain ⟨k, hk⟩ := Option.isSome_iff_exists.mp hsome
    have hpp : process_pptx env = [statusEv .completed 100 none] := by
      unfold process_pptx
      rw [hk]
      simp [hhit]
    have hpv : progressValues env = [0, 100] := by
      unfold progressValues jobTrace
      rw [hpp]
      simp [statusUpdates, statusEv]
    rw [hpv]
    refine ⟨?_, rfl⟩
    rw [List.chain'_iff_pairwise]
    norm_num [List.pairwise_cons]
  · have hT : jobTrace env = statusEv .queued 0 none :: processMiss env := by
      unfold jobTrace
      rw [process_pptx_of_miss env hcache]
    cases hlo : env.libreofficeAvailable with
    | false =>
      exfalso
      have hpm : processMiss env = statusEv .processing 1 none ::
          failEvents ("LibreOffice not configured or not found".toList) := by
        unfold processMiss
        simp [hlo]
      unfold jobCompletes at hcomp
      rw [hT, hpm, show statusEv .queued 0 none :: statusEv .processing 1 none ::
        failEvents ("LibreOffice not configured or not found".toList) =
        [statusEv .queued 0 none, statusEv .processing 1 none] ++
          failEvents ("LibreOffice not configured or not found".toList) from rfl,
        statusUpdates_last_fail] at hcomp
      simp at hcomp
    | true =>
      have hpm1 : processMiss env = statusEv .processing 1 none ::
          processOpened env := by
        unfold processMiss
        simp [hlo]
      cases hsvg : svgGenerationOutcome env.svgFilesFound env.slideCount with
      | error e =>
        exfalso
        have hpm := processMiss_svg_error env e hlo hsvg
        unfold jobCompletes at hcomp
        rw [hT, hpm, show statusEv .queued 0 none :: [statusEv .processing 1 none,
          statusEv .processing 5 none, statusEv .processing 10 none,
          statusEv .failed 0 (some e)] = [statusEv .queued 0 none,
          statusEv .processing 1 none, statusEv .processing 5 none,
          statusEv .processing 10 none] ++ failEvents e from rfl,
          statusUpdates_last_fail] at hcomp
        simp at hcomp
      | ok svgs =>
        obtain ⟨hfn, hn0, hlen⟩ := svgGenerationOutcome_ok _ _ _ hsvg
        have hn : 0 < env.slideCount := Nat.pos_of_ne_zero hn0
        have hdc : ¬ (svgs.length = 0 ∨ svgs.length ≠ env.slideCount) := by
          rw [hlen]
          omega
        have hpo : processOpened env = statusEv .processing 5 none ::
            statusEv .processing 10 none :: processWithSvgs env svgs := by
          unfold processOpened
          rw [hsvg]
        have hpw : processWithSvgs env svgs = processSlides env := by
          unfold processWithSvgs
          rw [if_neg hdc]
        obtain ⟨l', hl', hp⟩ := slideLoop_events env.slideCount env.slideFailure
        rcases hloop : slideLoop env.slideCount env.slideFailure with ⟨levs, r⟩
        rw [hloop] at hl'
        dsimp only at hl'
        cases r with
        | some e =>
          exfalso
          have hps : processSlides env = levs ++ failEvents e := by
            unfold processSlides
            rw [hloop]
          unfold jobCompletes at hcomp
          rw [hT, hpm1, hpo, hpw, hps] at hcomp
          rw [show statusEv .queued 0 none :: statusEv .processing 1 none ::
            statusEv .processing 5 none :: statusEv .processing 10 none ::
            (levs ++ failEvents e) = ([statusEv .queued 0 none,
            statusEv .processing 1 none, statusEv .processing 5 none,
            statusEv .processing 10 none] ++ levs) ++ failEvents e by simp,
            statusUpdates_last_fail] at hcomp
          simp at hcomp
        | none =>
          cases hup : env.uploadResult with
          | error eu =>
            exfalso
            have hps : processSlides env = levs ++ failEvents eu := by
              unfold processSlides
              rw [hloop]
              dsimp only
              unfold processUpload
              rw [hup]
            unfold jobCompletes at hcomp
            rw [hT, hpm1, hpo, hpw, hps] at hcomp
            rw [show statusEv .queued 0 none :: statusEv .processing 1 none ::
              statusEv .processing 5 none :: statusEv .processing 10 none ::
              (levs ++ failEvents eu) = ([statusEv .queued 0 none,
              statusEv .processing 1 none, statusEv .processing 5 none,
              statusEv .processing 10 none] ++ levs) ++ failEvents eu by simp,
              statusUpdates_last_fail] at hcomp
            simp at hcomp
          | ok url =>
            have hps : processSlides env = levs ++
                (cacheStoreEvents env url ++ [statusEv .completed 100 none]) := by
              unfold processSlides
              rw [hloop]
              dsimp only
              unfold processUpload
              rw [hup]
            have hcs : statusUpdates (cacheStoreEvents env url) = [] := by
              unfold cacheStoreEvents
              rcases env.cacheKey with _ | k
              · rfl
              · by_cases hu : url ≠ [] <;> simp [hu, statusUpdates]
            unfold progressValues
            rw [hT, hpm1, hpo, hpw, hps, hl']
            exact progress_success_chain env.slideCount hn l' hp
              (cacheStoreEvents env url) hcs

/-- Witness for C4 (amended) on a fully successful 4-slide run: the slide at
index 2 gets a progress within 1 of 20 + floor(75*2/4) = 57 (the doubles give
exactly 57 here, since 2/4 is a power of two), and the recorded progress
sequence is non-decreasing and ends at 100. -/
theorem C4_progress_witness :
    (20 + (Nat.cast ((75 * 2) / envSuccess.slideCount) : Int) - 1 ≤
        slideProgress 2 envSuccess.slideCount ∧
      slideProgress 2 envSuccess.slideCount ≤
        20 + (Nat.cast ((75 * 2) / envSuccess.slideCount) : Int) + 1) ∧
    (List.Chain' (· ≤ ·) (progressValues envSuccess) ∧
      (progressValues envSuccess).getLast? = some 100) :=
  ⟨(C4_progress envSuccess).1 2 (by decide) (by decide),
   (C4_progress envSuccess).2.2 (by decide)⟩


theorem strategyCaseInsensitive_cases (sc svc : List Char) (e : SvgTextElem)
    (best : MatchResult) :
    strategyCaseInsensitive sc svc e best = best ∨
      (strategyCaseInsensitive sc svc e best).best = some e := by
  unfold strategyCaseInsensitive
  split_ifs <;> simp

theorem strategyNormalizedWs_cases (sc svc : List Char) (e : SvgTextElem)
    (best : MatchResult) :
    strategyNormalizedWs sc svc e best = best ∨
      (strategyNormalizedWs sc svc e best).best = some e := by
  unfold strategyNormalizedWs
  split_ifs <;> simp

theorem strategySubstring_cases (sc svc : List Char) (e : SvgTextElem)
    (best : MatchResult) :
    strategySubstring sc svc e best = best ∨
      (strategySubstring sc svc e best).best = some e := by
  unfold strategySubstring
  split_ifs <;> simp

theorem strategyWordSim_cases (sc svc : List Char) (e : SvgTextElem)
    (best : MatchResult) :
    strategyWordSim sc svc e best = best ∨
      (strategyWordSim sc svc e best).best = some e := by
  unfold strategyWordSim
  split_ifs <;> simp

theorem strategyCharSim_cases (sc svc : List Char) (e : SvgTextElem)
    (best : MatchResult) :
    strategyCharSim sc svc e best = best ∨
      (strategyCharSim sc svc e best).best = some e := by
  unfold strategyCharSim
  split_ifs <;> simp

theorem matchStep_isSome (f : MatchResult → MatchResult) (e : SvgTextElem)
    (hf : ∀ b, f b = b ∨ (f b).best = some e) (b : MatchResult)
    (hb : Frac.blt ⟨0, 1⟩ b.score = true → b.best.isSome = true) :
    Frac.blt ⟨0, 1⟩ (f b).score = true → (f b).best.isSome = true := by
  rcases hf b with h | h
  · rw [h]
    exact hb
  · intro _
    rw [h]
    rfl

theorem applyMatchStrategies_isSome (sc svc : List Char) (e : SvgTextElem)
    (best : MatchResult)
    (h : Frac.blt ⟨0, 1⟩ best.score = true → best.best.isSome = true) :
    Frac.blt ⟨0, 1⟩ (applyMatchStrategies sc svc e best).score = true →
      (applyMatchStrategies sc svc e best).best.isSome = true := by
  unfold applyMatchStrategies
  exact matchStep_isSome _ e (strategyCharSim_cases sc svc e) _
    (matchStep_isSome _ e (strategyWordSim_cases sc svc e) _
      (matchStep_isSome _ e (strategySubstring_cases sc svc e) _
        (matchStep_isSome _ e (strategyNormalizedWs_cases sc svc e) _
          (matchStep_isSome _ e (strategyCaseInsensitive_cases sc svc e) _ h))))

theorem findBestLoop_isSome (shapeClean : List Char) :
    ∀ (elems : List SvgTextElem) (best : MatchResult),
      (Frac.blt ⟨0, 1⟩ best.score = true → best.best.isSome = true) →
      Frac.blt ⟨0, 1⟩ (findBestLoop shapeClean elems best).score = true →
        (findBestLoop shapeClean elems best).best.isSome = true := by
  intro elems
  induction elems with
  | nil => intro best h; exact h
  | cons e rest ih =>
    intro best h
    simp only [findBestLoop]
    split_ifs
    · intro _; rfl
    · exact ih _ (applyMatchStrategies_isSome _ _ e best h)

theorem find_best_isSome (t : List Char) (elems : List SvgTextElem)
    (h : Frac.blt ⟨0, 1⟩ (find_best_svg_text_match t elems).score = true) :
    ∃ e, (find_best_svg_text_match t elems).best = some e := by
  unfold find_best_svg_text_match at h ⊢
  split_ifs at h ⊢ with hc
  · exact absurd h (by decide)
  · exact Option.isSome_iff_exists.mp
      (findBestLoop_isSome (pyStrip t) elems ⟨⟨0, 1⟩, none, "no_match".toList⟩
        (fun hx => absurd hx (by decide)) h)

theorem validateFold_fst (t : TransformInfo) (elems : List SvgTextElem) :
    ∀ (shapes : List SlideShape) (acc : List SlideShape) (st : ValidationStats),
      (shapes.foldl (validateFoldStep t elems) (acc, st)).1 =
        acc ++ shapes.map (fun s => (validateShape t elems s).1) := by
  intro shapes
  induction shapes with
  | nil => intro acc st; simp
  | cons s rest ih =>
    intro acc st
    rw [List.foldl_cons]
    show (rest.foldl (validateFoldStep t elems)
      (acc ++ [(validateShape t elems s).1], _)).1 = _
    rw [ih]
    simp

theorem validateShape_preserves (t : TransformInfo) (elems : List SvgTextElem)
    (s : SlideShape) :
    (validateShape t elems s).1.original_text = s.original_text ∧
    (validateShape t elems s).1.shape_type = s.shape_type ∧
    (validateShape t elems s).1.width = s.width ∧
    (validateShape t elems s).1.height = s.height := by
  unfold validateShape validateTextShape apply_coordinate_validation
  split_ifs <;>
    first
      | exact ⟨rfl, rfl, rfl, rfl⟩
      | cases (find_best_svg_text_match (s.original_text.getD []) elems).best <;>
          exact ⟨rfl, rfl, rfl, rfl⟩

theorem getD_map_of_lt {α β : Type} (f : α → β) (l : List α) (i : Nat)
    (hi : i < l.length) (d : β) (d2 : α) :
    (l.map f).getD i d = f (l.getD i d2) := by
  rw [List.getD_eq_getElem?_getD, List.getD_eq_getElem?_getD, List.getElem?_map,
    List.getElem?_eq_getElem hi]
  rfl

theorem mark_shapes_getD (shapes : List SlideShape) (reason : List Char)
    (i : Nat) (hi : i < shapes.length) :
    (mark_shapes_as_unvalidated shapes reason).getD i blankShape =
      { shapes.getD i blankShape with
        coordinate_validation_score := none
        svg_matched := some false
        coordinate_source :=
          "pptx_extraction_only (".toList ++ reason ++ ")".toList
        svg_original_x := none
        svg_original_y := none } := by
  unfold mark_shapes_as_unvalidated
  exact getD_map_of_lt _ shapes i hi _ _

theorem validate_parsed_eq_map (shapes : List SlideShape) (svg : SvgInfo)
    (elems : List SvgTextElem) (wEmu hEmu : Nat)
    (hdiv : ¬ (fracTruthy svg.width = true ∧ fracTruthy svg.height = true ∧
      (emuToPx wEmu = 0 ∨ emuToPx hEmu = 0))) :
    validate_coordinates_with_svg shapes (.parsed svg elems) wEmu hEmu =
      shapes.map (fun s =>
        (validateShape (calculate_coordinate_transform svg (emuToPx wEmu)
          (emuToPx hEmu)) elems s).1) := by
  show (if fracTruthy svg.width = true ∧ fracTruthy svg.height = true ∧
      (emuToPx wEmu = 0 ∨ emuToPx hEmu = 0) then
        mark_shapes_as_unvalidated shapes ("validation_error: division by zero".toList)
      else
        (shapes.foldl (validateFoldStep (calculate_coordinate_transform svg
          (emuToPx wEmu) (emuToPx hEmu)) elems) ([], ⟨0, 0, 0⟩)).1) = _
  rw [if_neg hdiv, validateFold_fst]
  simp

theorem validate_parsed_div_eq_mark (shapes : List SlideShape) (svg : SvgInfo)
    (elems : List SvgTextElem) (wEmu hEmu : Nat)
    (hdiv : fracTruthy svg.width = true ∧ fracTruthy svg.height = true ∧
      (emuToPx wEmu = 0 ∨ emuToPx hEmu = 0)) :
    validate_coordinates_with_svg shapes (.parsed svg elems) wEmu hEmu =
      mark_shapes_as_unvalidated shapes
        ("validation_error: division by zero".toList) := by
  show (if fracTruthy svg.width = true ∧ fracTruthy svg.height = true ∧
      (emuToPx wEmu = 0 ∨ emuToPx hEmu = 0) then
        mark_shapes_as_unvalidated shapes ("validation_error: division by zero".toList)
      else
        (shapes.foldl (validateFoldStep (calculate_coordinate_transform svg
          (emuToPx wEmu) (emuToPx hEmu)) elems) ([], ⟨0, 0, 0⟩)).1) = _
  rw [if_pos hdiv]


theorem validateShape_text (t : TransformInfo) (elems : List SvgTextElem)
    (s : SlideShape) (htext : s.shape_type = ShapeKind.text)
    (htruthy : textTruthy s.original_text = true) :
    validateShape t elems s = validateTextShape t elems s := by
  unfold validateShape
  split_ifs with h
  · exfalso
    rcases h with h | h
    · exact h htext
    · exact h htruthy
  · rfl

theorem validateTextShape_matched (t : TransformInfo) (elems : List SvgTextElem)
    (s : SlideShape) (e : SvgTextElem)
    (hpos : Frac.blt ⟨0, 1⟩ (find_best_svg_text_match (s.original_text.getD [])
      elems).score = true)
    (he : (find_best_svg_text_match (s.original_text.getD []) elems).best =
      some e) :
    (validateTextShape t elems s).1 =
      { s with
        x_coordinate :=
          if t.needs_transform then
            pyInt (Frac.div (Frac.sub e.x t.offset_x) t.scale_x)
          else pyInt e.x
        y_coordinate :=
          if t.needs_transform then
            pyInt (Frac.div (Frac.sub e.y t.offset_y) t.scale_y)
          else pyInt e.y
        coordinate_validation_score :=
          some (find_best_svg_text_match (s.original_text.getD []) elems).score
        svg_matched := some true
        svg_original_x := some e.x
        svg_original_y := some e.y
        coordinate_source := "svg_validation (".toList ++
          (find_best_svg_text_match (s.original_text.getD []) elems).strategy ++
          ")".toList } := by
  unfold validateTextShape
  rw [if_pos hpos]
  show (apply_coordinate_validation s
    (find_best_svg_text_match (s.original_text.getD []) elems) t) = _
  unfold apply_coordinate_validation
  rw [he]

theorem validateTextShape_unmatched (t : TransformInfo)
    (elems : List SvgTextElem) (s : SlideShape)
    (hneg : Frac.blt ⟨0, 1⟩ (find_best_svg_text_match (s.original_text.getD [])
      elems).score = false) :
    (validateTextShape t elems s).1 =
      { s with
        coordinate_validation_score := some ⟨0, 1⟩
        svg_matched := some false
        coordinate_source := "pptx_extraction".toList
        svg_original_x := none
        svg_original_y := none } := by
  unfold validateTextShape
  rw [if_neg (by simp [hneg])]

/-- C6 (counterexample): a matched shape's coordinates are not, in general,
the SVG coordinates transformed back through the derived scale factors and
offsets.  With an SVG of 960 x 540 (scale exactly 1 against the slide's 960
x 540 pixels) whose viewBox starts at x = 10, the exactly-matched shape gets
x = 10 — the raw SVG coordinate — while the claimed transform
`(svg_x - offset_x) / scale_x` yields 0: the offset is never subtracted when
both scale factors are within 0.001 of 1, because `needs_transform` is then
false. -/
theorem C6_viewbox_offset_ignored_counterexample :
    (validate_coordinates_with_svg [shapeA] (.parsed svgInfoA elemsA)
        slideWidthEmuA slideHeightEmuA).map SlideShape.x_coordinate = [10] ∧
    (validate_coordinates_with_svg [shapeA] (.parsed svgInfoA elemsA)
        slideWidthEmuA slideHeightEmuA).map SlideShape.svg_matched =
      [some true] ∧
    claimedTransformX (calculate_coordinate_transform svgInfoA
      (emuToPx slideWidthEmuA) (emuToPx slideHeightEmuA)) ⟨10, 1⟩ = 0 ∧
    (10 : Int) ≠ 0 := by
  decide

/-- C6 (amended): on the successful parse path the validated list is exactly
the per-shape mapping of the input list; every text shape with an accepted
match (score above 0) has its coordinates replaced by the matched element's
SVG coordinates transformed back through the derived scale factors and
offsets only when a scale factor deviates from 1 by more than 0.001
(`needs_transform`), and otherwise by the raw truncated SVG coordinates with
no offset subtraction, with `svg_matched = true`; every text shape without
an accepted match keeps its extracted coordinates unchanged with
`svg_matched = false`. -/
theorem C6_matched_coordinates_follow_code_transform (shapes : List SlideShape)
    (svg : SvgInfo) (elems : List SvgTextElem) (wEmu hEmu : Nat)
    (hdiv : ¬ (fracTruthy svg.width = true ∧ fracTruthy svg.height = true ∧
      (emuToPx wEmu = 0 ∨ emuToPx hEmu = 0))) :
    validate_coordinates_with_svg shapes (.parsed svg elems) wEmu hEmu =
      shapes.map (fun s => (validateShape (calculate_coordinate_transform svg
        (emuToPx wEmu) (emuToPx hEmu)) elems s).1) ∧
    (∀ (t : TransformInfo) (s : SlideShape),
      s.shape_type = ShapeKind.text → textTruthy s.original_text = true →
      ((Frac.blt ⟨0, 1⟩ (find_best_svg_text_match (s.original_text.getD [])
          elems).score = true →
        ∃ e, (find_best_svg_text_match (s.original_text.getD []) elems).best =
            some e ∧
          (validateShape t elems s).1.svg_matched = some true ∧
          (validateShape t elems s).1.x_coordinate =
            (if t.needs_transform then
              pyInt (Frac.div (Frac.sub e.x t.offset_x) t.scale_x)
            else pyInt e.x) ∧
          (validateShape t elems s).1.y_coordinate =
            (if t.needs_transform then
              pyInt (Frac.div (Frac.sub e.y t.offset_y) t.scale_y)
            else pyInt e.y)) ∧
       (Frac.blt ⟨0, 1⟩ (find_best_svg_text_match (s.original_text.getD [])
          elems).score = false →
        (validateShape t elems s).1.x_coordinate = s.x_coordinate ∧
        (validateShape t elems s).1.y_coordinate = s.y_coordinate ∧
        (validateShape t elems s).1.svg_matched = some false))) := by
  refine ⟨validate_parsed_eq_map shapes svg elems wEmu hEmu hdiv, ?_⟩
  intro t s htext htruthy
  rw [validateShape_text t elems s htext htruthy]
  constructor
  · intro hpos
    obtain ⟨e, he⟩ := find_best_isSome _ elems hpos
    refine ⟨e, he, ?_, ?_, ?_⟩ <;>
      rw [validateTextShape_matched t elems s e hpos he]
  · intro hneg
    refine ⟨?_, ?_, ?_⟩ <;> rw [validateTextShape_unmatched t elems s hneg]

/-- Witness for C6 (amended) at the concrete one-shape slide with an exact
match: the output equals the per-shape mapping, and the matched shape takes
the raw truncated SVG coordinates since both scale factors are exactly 1. -/
theorem C6_matched_coordinates_follow_code_transform_witness :
    (validate_coordinates_with_svg [shapeA] (.parsed svgInfoA elemsA)
        slideWidthEmuA slideHeightEmuA =
      [shapeA].map (fun s => (validateShape (calculate_coordinate_transform
        svgInfoA (emuToPx slideWidthEmuA) (emuToPx slideHeightEmuA))
        elemsA s).1)) ∧
    (∃ e, (find_best_svg_text_match (shapeA.original_text.getD [])
        elemsA).best = some e ∧
      (validateShape (calculate_coordinate_transform svgInfoA
        (emuToPx slideWidthEmuA) (emuToPx slideHeightEmuA)) elemsA
        shapeA).1.svg_matched = some true ∧
      (validateShape (calculate_coordinate_transform svgInfoA
        (emuToPx slideWidthEmuA) (emuToPx slideHeightEmuA)) elemsA
        shapeA).1.x_coordinate =
        (if (calculate_coordinate_transform svgInfoA (emuToPx slideWidthEmuA)
            (emuToPx slideHeightEmuA)).needs_transform then
          pyInt (Frac.div (Frac.sub e.x (calculate_coordinate_transform svgInfoA
            (emuToPx slideWidthEmuA) (emuToPx slideHeightEmuA)).offset_x)
            (calculate_coordinate_transform svgInfoA (emuToPx slideWidthEmuA)
              (emuToPx slideHeightEmuA)).scale_x)
        else pyInt e.x) ∧
      (validateShape (calculate_coordinate_transform svgInfoA
        (emuToPx slideWidthEmuA) (emuToPx slideHeightEmuA)) elemsA
        shapeA).1.y_coordinate =
        (if (calculate_coordinate_transform svgInfoA (emuToPx slideWidthEmuA)
            (emuToPx slideHeightEmuA)).needs_transform then
          pyInt (Frac.div (Frac.sub e.y (calculate_coordinate_transform svgInfoA
            (emuToPx slideWidthEmuA) (emuToPx slideHeightEmuA)).offset_y)
            (calculate_coordinate_transform svgInfoA (emuToPx slideWidthEmuA)
              (emuToPx slideHeightEmuA)).scale_y)
        else pyInt e.y)) :=
  ⟨(C6_matched_coordinates_follow_code_transform [shapeA] svgInfoA elemsA
      slideWidthEmuA slideHeightEmuA (by decide)).1,
   ((C6_matched_coordinates_follow_code_transform [shapeA] svgInfoA elemsA
      slideWidthEmuA slideHeightEmuA (by decide)).2
      (calculate_coordinate_transform svgInfoA (emuToPx slideWidthEmuA)
        (emuToPx slideHeightEmuA)) shapeA rfl (by decide)).1 (by decide)⟩

/-- C10: coordinate validation is shape-preserving: the output has exactly
one shape per input shape at the same index, whose `original_text`,
`shape_type`, `width` and `height` are those of the input shape, on every
path; the missing-file and parse-error paths return exactly the
unvalidated marking, which keeps every coordinate unchanged and sets
`svg_matched = false` with a cleared validation score. -/
theorem C10_validation_is_shape_preserving (shapes : List SlideShape)
    (outcome : SvgOutcome) (wEmu hEmu : Nat) :
    (validate_coordinates_with_svg shapes outcome wEmu hEmu).length =
      shapes.length ∧
    (∀ i, i < shapes.length →
      ((validate_coordinates_with_svg shapes outcome wEmu hEmu).getD i
          blankShape).original_text =
        (shapes.getD i blankShape).original_text ∧
      ((validate_coordinates_with_svg shapes outcome wEmu hEmu).getD i
          blankShape).shape_type = (shapes.getD i blankShape).shape_type ∧
      ((validate_coordinates_with_svg shapes outcome wEmu hEmu).getD i
          blankShape).width = (shapes.getD i blankShape).width ∧
      ((validate_coordinates_with_svg shapes outcome wEmu hEmu).getD i
          blankShape).height = (shapes.getD i blankShape).height) ∧
    (validate_coordinates_with_svg shapes .fileMissing wEmu hEmu =
      mark_shapes_as_unvalidated shapes ("svg_file_missing".toList)) ∧
    (∀ m, validate_coordinates_with_svg shapes (.parseFailure m) wEmu hEmu =
      mark_shapes_as_unvalidated shapes ("validation_error: ".toList ++ m)) ∧
    (∀ reason i, i < shapes.length →
      ((mark_shapes_as_unvalidated shapes reason).getD i
          blankShape).x_coordinate = (shapes.getD i blankShape).x_coordinate ∧
      ((mark_shapes_as_unvalidated shapes reason).getD i
          blankShape).y_coordinate = (shapes.getD i blankShape).y_coordinate ∧
      ((mark_shapes_as_unvalidated shapes reason).getD i
          blankShape).svg_matched = some false ∧
      ((mark_shapes_as_unvalidated shapes reason).getD i
          blankShape).coordinate_validation_score = none) := by
  refine ⟨?_, ?_, rfl, fun m => rfl, ?_⟩
  · cases outcome with
    | fileMissing => simp [validate_coordinates_with_svg, mark_shapes_as_unvalidated]
    | parseFailure m => simp [validate_coordinates_with_svg, mark_shapes_as_unvalidated]
    | parsed svg elems =>
      by_cases hdiv : fracTruthy svg.width = true ∧ fracTruthy svg.height = true ∧
        (emuToPx wEmu = 0 ∨ emuToPx hEmu = 0)
      · rw [validate_parsed_div_eq_mark shapes svg elems wEmu hEmu hdiv]
        simp [mark_shapes_as_unvalidated]
      · rw [validate_parsed_eq_map shapes svg elems wEmu hEmu hdiv]
        simp
  · intro i hi
    cases outcome with
    | fileMissing =>
      rw [show validate_coordinates_with_svg shapes .fileMissing wEmu hEmu =
        mark_shapes_as_unvalidated shapes ("svg_file_missing".toList) from rfl,
        mark_shapes_getD shapes _ i hi]
      exact ⟨rfl, rfl, rfl, rfl⟩
    | parseFailure m =>
      rw [show validate_coordinates_with_svg shapes (.parseFailure m) wEmu hEmu =
        mark_shapes_as_unvalidated shapes ("validation_error: ".toList ++ m)
        from rfl, mark_shapes_getD shapes _ i hi]
      exact ⟨rfl, rfl, rfl, rfl⟩
    | parsed svg elems =>
      by_cases hdiv : fracTruthy svg.width = true ∧ fracTruthy svg.height = true ∧
        (emuToPx wEmu = 0 ∨ emuToPx hEmu = 0)
      · rw [validate_parsed_div_eq_mark shapes svg elems wEmu hEmu hdiv,
          mark_shapes_getD shapes _ i hi]
        exact ⟨rfl, rfl, rfl, rfl⟩
      · rw [validate_parsed_eq_map shapes svg elems wEmu hEmu hdiv,
          getD_map_of_lt _ shapes i hi blankShape blankShape]
        exact validateShape_preserves _ elems (shapes.getD i blankShape)
  · intro reason i hi
    rw [mark_shapes_getD shapes reason i hi]
    exact ⟨rfl, rfl, rfl, rfl⟩

/-- Witness for C10 on the concrete one-shape slide. -/
theorem C10_validation_is_shape_preserving_witness :
    (validate_coordinates_with_svg [shapeA] (.parsed svgInfoA elemsA)
        slideWidthEmuA slideHeightEmuA).length = [shapeA].length ∧
    ((validate_coordinates_with_svg [shapeA] (.parsed svgInfoA elemsA)
        slideWidthEmuA slideHeightEmuA).getD 0 blankShape).original_text =
      ([shapeA].getD 0 blankShape).original_text ∧
    ((mark_shapes_as_unvalidated [shapeA] "r".toList).getD 0
        blankShape).svg_matched = some false :=
  ⟨(C10_validation_is_shape_preserving [shapeA] (.parsed svgInfoA elemsA)
      slideWidthEmuA slideHeightEmuA).1,
   ((C10_validation_is_shape_preserving [shapeA] (.parsed svgInfoA elemsA)
      slideWidthEmuA slideHeightEmuA).2.1 0 (by decide)).1,
   ((C10_validation_is_shape_preserving [shapeA] (.parsed svgInfoA elemsA)
      slideWidthEmuA slideHeightEmuA).2.2.2.2 "r".toList 0 (by decide)).2.2.1⟩

end PptxProc
